import Mathlib

/-!
Verification development for the accreditation comparison / ranking / forecast
backend (`backend/routers/compare.py`, `backend/routers/dashboard.py`).

The Python code is shallowly embedded over exact rationals (`ℚ` stands for the
Python floats; all arithmetic in the source is plain +, *, / and comparisons on
small decimal values, so exact rational arithmetic is the faithful reading).
JSON dictionaries become association lists, SQL tables become Lean lists, and
the record store is a list of `Batch` values looked up by id, mirroring
`db.query(Batch).filter(Batch.id == batch_id).first()`.

Free-text presentation helpers that live outside the embedded modules
(`generate_short_label`, `format_metric_name`, `extract_academic_year_from_data`
from `utils/label_formatter.py`) are passed in as an explicit parameter record
`Fmt`; every theorem is universally quantified over it.  Python's number
formatting `{v:.1f}` is reproduced over ℚ (`fmt1`), and Python's `round(x, 2)`
(round to nearest, ties to even) is reproduced exactly over ℚ (`round2`);
binary floating-point representation error is abstracted away.
-/

namespace Gdg

/-- Python truthiness-based `a or b` over optional numbers: `x or y` yields `y`
when `x` is `None` or `0`, else `x`.  Used for the KPI alias fallback chains. -/
def pyOr (a b : Option ℚ) : Option ℚ :=
  match a with
  | some x => if x = 0 then b else some x
  | none => b

/-- Dictionary read `d.get(k)` on an association list whose stored values are
already optional: absent key and stored `None` both read as `none`, exactly as
in Python. -/
def lookupQ (m : List (String × Option ℚ)) (k : String) : Option ℚ :=
  (m.lookup k).join

/-- Python dict assignment `d[k] = v`: overwrite the existing binding if the key
is present, otherwise append the new binding (insertion order preserved). -/
def assocSet (m : List (String × Option ℚ)) (k : String) (v : Option ℚ) :
    List (String × Option ℚ) :=
  if (m.lookup k).isSome then
    m.map (fun p => if p.1 = k then (k, v) else p)
  else
    m ++ [(k, v)]

/-- Round a rational to the nearest integer, ties to even — the rounding mode of
Python's builtin `round`. -/
def rndHalfEven (x : ℚ) : ℤ :=
  let f : ℤ := ⌊x⌋
  let r : ℚ := x - (f : ℚ)
  if r < 1/2 then f
  else if 1/2 < r then f + 1
  else if f % 2 = 0 then f else f + 1

/-- Python `round(x, 2)` over exact rationals. -/
def round2 (x : ℚ) : ℚ := ((rndHalfEven (100 * x) : ℤ) : ℚ) / 100

/-- Python `f"{v:.1f}"` for the nonnegative display values that occur in
strengths / weaknesses / notes text. -/
def fmt1 (x : ℚ) : String :=
  let n : ℤ := rndHalfEven (10 * x)
  let ip := n / 10
  let d := (n % 10).natAbs
  s!"{ip}.{d}"

/-- Lower-case a string character-wise (Python `str.lower`). -/
def sLower (s : String) : String := ⟨s.data.map Char.toLower⟩

/-- Upper-case a string character-wise (Python `str.upper`). -/
def sUpper (s : String) : String := ⟨s.data.map Char.toUpper⟩

/-- Upper-case the first character (used to realise Python `str.title` on
single words). -/
def sCapitalize (s : String) : String :=
  match s.data with
  | [] => ⟨[]⟩
  | c :: r => ⟨Char.toUpper c :: r⟩

/-- A whitespace character in the sense of Python `str.strip`. -/
def isSpaceChar (c : Char) : Bool :=
  c = ' ' ∨ c = '\t' ∨ c = '\n' ∨ c = '\r'

/-- Python `str.strip()`: drop whitespace from both ends. -/
def sTrim (s : String) : String :=
  ⟨((s.data.dropWhile isSpaceChar).reverse.dropWhile isSpaceChar).reverse⟩

/-- Python `str.startswith(p)`. -/
def sStartsWith (s p : String) : Bool :=
  p.data.isPrefixOf s.data

/-- Substring occurrence on character lists. -/
def listInfix (sub : List Char) : List Char → Bool
  | [] => sub.isEmpty
  | c :: rest => (sub.isPrefixOf (c :: rest)) || listInfix sub rest

/-- Python `sub in s` on strings. -/
def sContains (s sub : String) : Bool := listInfix sub.data s.data

/-- Python `s[n:]` (drop the first `n` characters). -/
def sDrop (s : String) (n : Nat) : String := ⟨s.data.drop n⟩

/-- Fuel-driven splitter on character lists realising Python `str.split(sep)`
for a non-empty separator. -/
def splitChars (sep : List Char) : Nat → List Char → List Char → List (List Char)
  | _, [], acc => [acc]
  | 0, l, acc => [acc ++ l]
  | fuel + 1, c :: rest, acc =>
    if sep.isPrefixOf (c :: rest) then
      acc :: splitChars sep fuel ((c :: rest).drop sep.length) []
    else
      splitChars sep fuel rest (acc ++ [c])

/-- Python `s.split(sep)` for the non-empty separators used by the source. -/
def sSplitOn (s sep : String) : List String :=
  if sep = "" then [s]
  else (splitChars sep.data s.data.length s.data []).map String.mk

/-- Python `kpi_id.replace("_", " ").title()` for the lowercase snake-case KPI
identifiers stored in `kpi_results`. -/
def titleCase (s : String) : String :=
  String.intercalate " " ((sSplitOn s "_").map (fun w => sCapitalize (sLower w)))

/-- Python truthiness of an optional string: `None` and `""` are falsy. -/
def strTruthy : Option String → Bool
  | none => false
  | some s => s ≠ ""

/-- Lexicographic `<=` on 4-tuples of rationals, i.e. Python's comparison of the
sort-key tuples built by `_determine_winner`. -/
def tupLe : (ℚ × ℚ × ℚ × ℚ) → (ℚ × ℚ × ℚ × ℚ) → Bool
  | (a1, a2, a3, a4), (b1, b2, b3, b4) =>
    if a1 ≠ b1 then decide (a1 < b1)
    else if a2 ≠ b2 then decide (a2 < b2)
    else if a3 ≠ b3 then decide (a3 < b3)
    else decide (a4 ≤ b4)

/-- Raw stored value of one KPI key inside `batch.kpi_results` (a JSON value):
a record `{"value": v, ...}` with an optional display name, a bare number, or
any other JSON shape. -/
inductive RawKPI
  | record (value : Option ℚ) (name : Option String)
  | bare (x : ℚ)
  | other
deriving DecidableEq, Repr

/-- One extracted-data row of the `blocks` table, with the fields the embedded
code reads: the invalidity flag and the extracted `data` payload (a string map,
consumed only by the academic-year extractor). -/
structure Block where
  is_invalid : Bool
  data : List (String × String)
deriving DecidableEq, Repr

/-- One row of the `batches` table together with its per-batch associated
counts, mirroring the columns and joined tables the embedded routines read.
`sufficiency_pct` stands for `sufficiency_result["percentage"]` (the stored
sufficiency result; the on-the-fly recomputation path delegates to an external
service and is abstracted to the same stored value), `compliance_count` for the
number of `compliance_flags` rows of the batch, and `files` for the number of
`files` rows. -/
structure Batch where
  id : String
  mode : String
  status : String
  is_invalid : Bool
  data_source : String
  institution_name : Option String
  department_name : Option String
  academic_year : Option String
  kpi_results : List (String × RawKPI)
  sufficiency_pct : ℚ
  compliance_count : Nat
  files : Nat
  blocks : List Block
deriving DecidableEq, Repr

/-- The record store: `db.query(Batch).filter(Batch.id == bid).first()`. -/
def findBatch (db : List Batch) (bid : String) : Option Batch :=
  db.find? (fun b => b.id = bid)

/-- One KPI card of the dashboard response (`KPICard`): display name and value. -/
structure KPICard where
  name : String
  value : Option ℚ
deriving DecidableEq, Repr

/-- The slice of `DashboardResponse` consumed by the comparison and ranking
code: institution name, the simplified `kpis` map, the `kpi_cards`, the
sufficiency percentage and the compliance-flag count.  (`block_cards` carry no
`data` field, so the block-scanning fallback of `_get_real_institution_name`
never fires on them and they are not materialised here.) -/
structure Dashboard where
  institution_name : Option String
  kpis : List (String × Option ℚ)
  kpi_cards : List KPICard
  sufficiency_pct : ℚ
  compliance_count : Nat
deriving DecidableEq, Repr

/-- The `kpis` map of `get_dashboard_data`: a record entry `{"value": v, ...}`
contributes `v` (possibly null), a bare number contributes itself, any other
shape is skipped (`continue`). -/
def dashboardKpis (kr : List (String × RawKPI)) : List (String × Option ℚ) :=
  kr.filterMap (fun p =>
    match p.2 with
    | .record v _ => some (p.1, v)
    | .bare x => some (p.1, some x)
    | .other => none)

/-- The `kpi_cards` of `get_dashboard_data`: same shape handling as the `kpis`
map; the card name is the record's `name` field when present, else the
title-cased KPI id. -/
def dashboardCards (kr : List (String × RawKPI)) : List KPICard :=
  kr.filterMap (fun p =>
    match p.2 with
    | .record v nm => some ⟨nm.getD (titleCase p.1), v⟩
    | .bare x => some ⟨titleCase p.1, some x⟩
    | .other => none)

/-- Embedding of `get_dashboard_data` (routers/dashboard.py) for an existing
batch, restricted to the fields read downstream.  The route-level access
control and the transparent 5-minute result cache are outside the computation
being verified. -/
def get_dashboard_data (b : Batch) : Dashboard :=
  { institution_name := b.institution_name
    kpis := dashboardKpis b.kpi_results
    kpi_cards := dashboardCards b.kpi_results
    sufficiency_pct := b.sufficiency_pct
    compliance_count := b.compliance_count }

/-- Presentation helpers from `utils/label_formatter.py` (not part of the
sources under verification): short-label generation with and without an
academic year, metric display names, and academic-year extraction from block
data.  Every theorem is universally quantified over this record. -/
structure Fmt where
  shortLabel3 : String → String → String → String
  shortLabel2 : String → String → String
  metricName : String → String
  extractYear : List (String × String) → Option String

/-- A trivial concrete instance of `Fmt`, used by witnesses. -/
def fmt0 : Fmt :=
  { shortLabel3 := fun _ bid _ => bid
    shortLabel2 := fun _ bid => bid
    metricName := fun k => k
    extractYear := fun _ => none }

/-- Response schema `SkippedBatch`: a skipped id with its reason code. -/
structure SkippedBatch where
  batch_id : String
  reason : String
deriving DecidableEq, Repr

/-- Response schema `InstitutionComparison` (schemas/compare.py), the per-
institution record of a comparison. -/
structure InstitutionComparison where
  batch_id : String
  institution_name : String
  short_label : String
  academic_year : String
  mode : String
  kpis : List (String × Option ℚ)
  sufficiency_percent : ℚ
  compliance_count : Nat
  overall_score : ℚ
  strengths : List String
  weaknesses : List String
deriving DecidableEq, Repr

/-- Response schema `CategoryWinner`: the winner record of one KPI category. -/
structure CategoryWinner where
  kpi_key : String
  kpi_name : String
  winner_batch_id : String
  winner_label : String
  winner_value : ℚ
  is_tie : Bool
  tied_with : List String
deriving DecidableEq, Repr

/-- Response schema `ComparisonInterpretation`. -/
structure ComparisonInterpretation where
  best_overall_batch_id : String
  best_overall_label : String
  best_overall_name : String
  category_winners : List CategoryWinner
  notes : List String
deriving DecidableEq, Repr

/-- Response schema `ComparisonResponse`.  The nested comparison-matrix dict
`{kpi_key: {label: value}}` is flattened to `(kpi_key, label, value)` triples
in insertion order (an information-preserving encoding of the nested dicts);
fields omitted at a construction site take their schema defaults. -/
structure ComparisonResponse where
  institutions : List InstitutionComparison
  skipped_batches : List SkippedBatch
  comparison_matrix : List (String × String × Option ℚ)
  winner_institution : Option String := none
  winner_label : Option String := none
  winner_name : Option String := none
  category_winners : List (String × String) := []
  category_winners_labels : List (String × String) := []
  interpretation : Option ComparisonInterpretation := none
  valid_for_comparison : Bool
  validation_message : Option String := none
deriving DecidableEq, Repr

/-- Outcome of the `/compare` endpoint: an HTTP error raised by request
validation, or a `ComparisonResponse`. -/
inductive CompareResult
  | error (status : Nat) (detail : String)
  | ok (r : ComparisonResponse)
deriving DecidableEq, Repr

/-- Response schema `RankingInstitution`. -/
structure RankingInstitution where
  batch_id : String
  name : String
  short_label : String
  mode : String
  ranking_score : ℚ
  fsr_score : Option ℚ
  infrastructure_score : Option ℚ
  placement_index : Option ℚ
  lab_compliance_index : Option ℚ
  overall_score : ℚ
  strengths : List String
  weaknesses : List String
deriving DecidableEq, Repr

/-- Response schema `RankingResponse`. -/
structure RankingResponse where
  institutions : List RankingInstitution
  ranking_type : String
  top_n : Nat
  insufficient_batches : List SkippedBatch
deriving DecidableEq, Repr

/-- The five canonical KPI keys (`CANONICAL_KPIS` in compare.py). -/
def CANONICAL_KPIS : List String :=
  ["fsr_score", "infrastructure_score", "placement_index", "lab_compliance_index", "overall_score"]

/-- The local helper `get_kpi_value` of `_validate_batch`: read one key of the
raw `kpi_results`, accepting a record with a `value` field or a bare number;
anything else reads as `None`. -/
def getKpiValue (kr : List (String × RawKPI)) (k : String) : Option ℚ :=
  match kr.lookup k with
  | none => none
  | some (.record v _) => v
  | some (.bare x) => some x
  | some .other => none

/-- Result of `_validate_batch`: eligibility flag, skip reason, and (on
success) the batch info consumed downstream.  The diagnostic dicts the source
attaches to failures are never read by any caller and are not materialised. -/
structure VRes where
  is_valid : Bool
  skip_reason : Option String
  info : Option (String × List Block)
deriving DecidableEq, Repr

/-- Embedding of `_validate_batch` (compare.py).  The `ProductionGuard.
validate_batch_for_operations` call is modelled from the spec (its module,
services/production_guard.py, is not among the sources): per spec §4.2 it
rejects exactly when the submission's validity flag is set. -/
def validate_batch (db : List Batch) (bid : String) : VRes :=
  match findBatch db bid with
  | none => ⟨false, some "batch_not_found", none⟩
  | some b =>
    if b.is_invalid then ⟨false, some "batch_invalid", none⟩
    else if b.status ≠ "completed" then ⟨false, some ("status_" ++ b.status), none⟩
    else
      let is_system_batch := b.data_source = "system"
      let valid_blocks := b.blocks.filter (fun bl => !bl.is_invalid)
      if is_system_batch ∧ valid_blocks.length = 0 then
        ⟨false, some "no_valid_blocks", none⟩
      else if ¬is_system_batch ∧ b.files = 0 then
        ⟨false, some "no_processed_documents", none⟩
      else if ¬is_system_batch ∧ valid_blocks.length = 0 then
        ⟨false, some "no_valid_blocks", none⟩
      else
        let overall_score := getKpiValue b.kpi_results "overall_score"
        if overall_score = none ∨ overall_score = some 0 then
          ⟨false, some "no_valid_kpis", none⟩
        else
          ⟨true, none, some (b.mode, valid_blocks)⟩

/-- The generated last-resort institution name of `_get_real_institution_name`:
mode fragment of the id plus its last four characters. -/
def fallbackInstName (bid : String) : String :=
  let mode := if bid.data.contains '_' then ((sSplitOn bid "_").get? 1).getD "" else "unknown"
  let m := sUpper mode
  let tail4 := sDrop bid (bid.data.length - 4)
  s!"{m} Institution #{tail4}"

/-- Embedding of `_get_real_institution_name`: the dashboard institution name
when non-empty with more than 3 characters after stripping, else the generated
fallback.  (The intermediate scan of `dashboard.block_cards` is omitted: block
cards carry no `data` attribute, so the `hasattr(block, 'data')` guard makes
that loop a no-op on every dashboard the code builds.) -/
def getRealInstName (dash : Dashboard) (bid : String) : String :=
  match dash.institution_name with
  | some n =>
    if n ≠ "" ∧ 3 < (sTrim n).data.length then sTrim n else fallbackInstName bid
  | none => fallbackInstName bid

/-- Embedding of `_has_valid_kpis`: at least one KPI with a numeric value
strictly above 0. -/
def hasValidKpis (kpis : List (String × Option ℚ)) : Bool :=
  kpis.any (fun p =>
    match p.2 with
    | some v => decide (0 < v)
    | none => false)

/-- Order by value descending, the sort key of `_strengths_weaknesses`
(`sort(key=lambda kv: kv[1], reverse=True)`; Python's sort is stable, as is
`List.insertionSort`, so the embedded sort yields the identical list). -/
def scoredR (a b : String × ℚ) : Prop := b.2 ≤ a.2

instance : DecidableRel scoredR :=
  fun a b => inferInstanceAs (Decidable (b.2 ≤ a.2))

instance : IsTotal (String × ℚ) scoredR :=
  ⟨fun a b => le_total b.2 a.2⟩

instance : IsTrans (String × ℚ) scoredR :=
  ⟨fun _ _ _ hab hbc => le_trans hbc hab⟩

/-- The weaknesses loop of `_strengths_weaknesses`: walk the value-ascending
list, collect metrics below 60, stop once three are collected. -/
def weakLoop (fmt : Fmt) : List (String × ℚ) → List String → List String
  | [], acc => acc
  | (k, v) :: rest, acc =>
    let acc' :=
      if v < 60 then
        let nm := fmt.metricName k
        let fv := fmt1 v
        acc ++ [s!"{nm} needs improvement ({fv})"]
      else acc
    if 3 ≤ acc'.length then acc' else weakLoop fmt rest acc'

/-- Embedding of `_strengths_weaknesses`: sort present metrics by value
descending (stable), praise the top three at the 80 / 60 thresholds, and list
up to three sub-60 metrics in ascending order as weaknesses. -/
def strengthsWeaknesses (fmt : Fmt) (kpis : List (String × Option ℚ)) :
    List String × List String :=
  let scored := kpis.filterMap (fun p => p.2.map (fun v => (p.1, v)))
  if scored = [] then ([], [])
  else
    let sorted := scored.insertionSort scoredR
    let strengths := (sorted.take 3).filterMap (fun p =>
      let nm := fmt.metricName p.1
      let fv := fmt1 p.2
      if 80 ≤ p.2 then some s!"Excellent {nm} ({fv})"
      else if 60 ≤ p.2 then some s!"Good {nm} ({fv})"
      else none)
    (strengths, weakLoop fmt sorted.reverse [])

/-- The sort key of `_determine_winner`: overall score, placement index
(`None` reading as 0), sufficiency percentage, negated compliance count. -/
def sortKeyIC (i : InstitutionComparison) : ℚ × ℚ × ℚ × ℚ :=
  (i.overall_score, (lookupQ i.kpis "placement_index").getD 0,
   i.sufficiency_percent, -(i.compliance_count : ℚ))

/-- Order realising `sorted(institutions, key=sort_key, reverse=True)`: `a`
may precede `b` exactly when `a`'s key tuple is lexicographically at least
`b`'s; ties keep the original order (Python's sort is stable, as is the
embedded stable sort). -/
def chainR (a b : InstitutionComparison) : Prop :=
  tupLe (sortKeyIC b) (sortKeyIC a) = true

instance : DecidableRel chainR :=
  fun a b => inferInstanceAs (Decidable (tupLe (sortKeyIC b) (sortKeyIC a) = true))

/-- Embedding of `_determine_winner`: head of the chain-sorted list. -/
def determineWinner (insts : List InstitutionComparison) :
    Option InstitutionComparison :=
  (insts.insertionSort chainR).head?

/-- Step 3 of the comparison loop: build the canonical KPI map from the
dashboard `kpis` dict, following the per-key alias fallback chains, and keep a
value only when it is a number strictly above 0 (null for missing, not 0). -/
def extractKpiMap (kpis : List (String × Option ℚ)) : List (String × Option ℚ) :=
  CANONICAL_KPIS.map (fun key =>
    let val : Option ℚ :=
      if key = "fsr_score" then
        pyOr (lookupQ kpis "fsr_score") (lookupQ kpis "fsr")
      else if key = "infrastructure_score" then
        pyOr (lookupQ kpis "infrastructure_score") (lookupQ kpis "infrastructure")
      else if key = "placement_index" then
        pyOr (lookupQ kpis "placement_index") (lookupQ kpis "placement_rate_num")
      else if key = "lab_compliance_index" then
        pyOr (lookupQ kpis "lab_compliance_index") (lookupQ kpis "lab_compliance")
      else if key = "overall_score" then
        lookupQ kpis "overall_score"
      else none
    (key, match val with
      | some x => if 0 < x then some x else none
      | none => none))

/-- The overall score of step 6 of the comparison loop: canonical overall
score when truthy, else the mean of the present KPI values, else 0. -/
def overallOf (kpi_map : List (String × Option ℚ)) : ℚ :=
  let overall0 := (lookupQ kpi_map "overall_score").getD 0
  if overall0 = 0 then
    let vs := kpi_map.filterMap (fun p => p.2)
    if vs = [] then 0 else vs.sum / (vs.length : ℚ)
  else overall0

/-- The academic-year scan of step 5: first truthy year extracted from a
non-empty valid block's data, defaulting to `"2024-25"`. -/
def academicYearOf (fmt : Fmt) (blocks : List Block) : String :=
  let found := blocks.findSome? (fun bl =>
    if bl.data = [] then none
    else
      match fmt.extractYear bl.data with
      | some y => if y = "" then none else some y
      | none => none)
  found.getD "2024-25"

/-- Accumulator of the main comparison loop: valid institutions, skipped
batches, the (flattened) comparison matrix, and the department names seen
(`departments_seen`, an insertion-ordered `batch_id → name` map). -/
structure CmpState where
  valid : List InstitutionComparison
  skipped : List SkippedBatch
  matrix : List (String × String × Option ℚ)
  depts : List (String × String)
deriving DecidableEq, Repr

/-- The empty initial accumulator of the comparison loop. -/
def compareInit : CmpState := ⟨[], [], [], []⟩

/-- One iteration of the comparison loop of `compare_institutions`: validate
the batch, record its department name, fetch its dashboard, extract and screen
its KPIs, and either append an institution record (updating the matrix) or a
skip record. -/
def compareStep (fmt : Fmt) (db : List Batch) (st : CmpState) (bid : String) :
    CmpState :=
  let v := validate_batch db bid
  if v.is_valid = false then
    { st with skipped := st.skipped ++ [⟨bid, v.skip_reason.getD "unknown"⟩] }
  else
    match findBatch db bid, v.info with
    | some b, some info =>
      let depts' :=
        match b.department_name with
        | some d => if d = "" then st.depts else st.depts ++ [(bid, d)]
        | none => st.depts
      let dash := get_dashboard_data b
      let kpi_map := extractKpiMap dash.kpis
      if hasValidKpis kpi_map = false then
        { st with depts := depts',
                  skipped := st.skipped ++ [⟨bid, "no_valid_kpis"⟩] }
      else
        let inst_name := getRealInstName dash bid
        let academic_year := academicYearOf fmt info.2
        let short_label := fmt.shortLabel3 inst_name bid academic_year
        let overall := overallOf kpi_map
        let sw := strengthsWeaknesses fmt kpi_map
        let inst : InstitutionComparison :=
          { batch_id := bid, institution_name := inst_name,
            short_label := short_label, academic_year := academic_year,
            mode := info.1, kpis := kpi_map,
            sufficiency_percent := dash.sufficiency_pct,
            compliance_count := dash.compliance_count,
            overall_score := overall, strengths := sw.1, weaknesses := sw.2 }
        { valid := st.valid ++ [inst], skipped := st.skipped,
          matrix := st.matrix ++ kpi_map.map (fun p => (p.1, short_label, p.2)),
          depts := depts' }
    | _, _ =>
      -- `get_dashboard_data` raises only when the batch is missing, which a
      -- passed validation excludes; kept for totality, mirroring the
      -- `except HTTPException` skip of the source.
      { st with skipped := st.skipped ++ [⟨bid, "missing_dashboard"⟩] }

/-- The comparison loop over all requested ids. -/
def collectState (fmt : Fmt) (db : List Batch) (ids : List String) : CmpState :=
  ids.foldl (compareStep fmt db) compareInit

/-- The cross-department validation message.  Python renders the names by
joining a `set`, whose iteration order is unspecified; the embedding fixes the
first-seen order of the distinct names. -/
def crossDeptMsg (names : List String) : String :=
  let joined := String.intercalate ", " names
  s!"Cross-department comparison not allowed. Found departments: {joined}"

/-- The too-few-institutions validation message. -/
def tooFewMsg (nValid nSkipped : Nat) : String :=
  s!"Only {nValid} valid institution(s). Need at least 2 for comparison. {nSkipped} batch(es) were skipped."

/-- Accumulator of the category-winner scan for one metric: current best
(value, batch id, label) and the tie list. -/
structure CatAcc where
  best : Option (ℚ × String × String)
  tied : List String
deriving DecidableEq, Repr

/-- One iteration of the category-winner scan: a strictly greater present
value replaces the winner and clears the tie list; an equal value appends the
label to the tie list; a missing value is skipped. -/
def catStep (key : String) (acc : CatAcc) (inst : InstitutionComparison) :
    CatAcc :=
  match lookupQ inst.kpis key with
  | none => acc
  | some val =>
    match acc.best with
    | none => ⟨some (val, inst.batch_id, inst.short_label), []⟩
    | some (bv, _, _) =>
      if bv < val then ⟨some (val, inst.batch_id, inst.short_label), []⟩
      else if val = bv then ⟨acc.best, acc.tied ++ [inst.short_label]⟩
      else acc

/-- The category-winner record of one metric: the scan over the valid
institutions, kept only when a winner with a truthy batch id was found. -/
def categoryDetail (fmt : Fmt) (insts : List InstitutionComparison)
    (key : String) : Option CategoryWinner :=
  let acc := insts.foldl (catStep key) ⟨none, []⟩
  match acc.best with
  | some (bv, bb, bl) =>
    if bb ≠ "" then
      some { kpi_key := key, kpi_name := fmt.metricName key,
             winner_batch_id := bb, winner_label := bl, winner_value := bv,
             is_tie := decide (0 < acc.tied.length), tied_with := acc.tied }
    else none
  | none => none

/-- The interpretation notes: winner lead note, zero-compliance commendation,
and the skipped-batch count note. -/
def buildNotes (winner : Option InstitutionComparison) (skippedCount : Nat) :
    List String :=
  let n1 :=
    match winner with
    | some w =>
      let lbl := w.short_label
      let sc := fmt1 w.overall_score
      [s!"🏆 {lbl} leads with overall score of {sc}"] ++
        (if w.compliance_count = 0 then [s!"✅ {lbl} has zero compliance issues"] else [])
    | none => []
  n1 ++ (if skippedCount ≠ 0 then [s!"⚠️ {skippedCount} batch(es) excluded from comparison"] else [])

/-- Order realising the stable overall-score-descending sort of the valid
institution list (`valid_institutions.sort(key=..., reverse=True)`). -/
def overallR (a b : InstitutionComparison) : Prop :=
  b.overall_score ≤ a.overall_score

instance : DecidableRel overallR :=
  fun a b => inferInstanceAs (Decidable (b.overall_score ≤ a.overall_score))

instance : IsTotal InstitutionComparison overallR :=
  ⟨fun a b => le_total b.overall_score a.overall_score⟩

instance : IsTrans InstitutionComparison overallR :=
  ⟨fun _ _ _ hab hbc => le_trans hbc hab⟩

/-- The hard-coded demo comparison returned whenever any requested id starts
with `demo-` (compare.py lines 388-473), transcribed literally. -/
def demoResponse : ComparisonResponse :=
  { institutions :=
      [{ batch_id := "demo-batch-aicte-2024",
         institution_name := "Indian Institute of Technology Delhi",
         short_label := "IIT-D 24-25", academic_year := "2024-25",
         mode := "aicte",
         kpis := [("fsr_score", some 85.2), ("infrastructure_score", some 78.5),
                  ("placement_index", some 92.3), ("lab_compliance_index", some 82.1),
                  ("overall_score", some 84.5)],
         sufficiency_percent := 95, compliance_count := 0, overall_score := 84.5,
         strengths := ["Excellent Placement (92.3)", "Strong Faculty-Student Ratio (85.2)"],
         weaknesses := [] },
       { batch_id := "demo-batch-aicte-2023",
         institution_name := "National Institute of Technology Trichy",
         short_label := "NIT-T 24-25", academic_year := "2024-25",
         mode := "aicte",
         kpis := [("fsr_score", some 78.9), ("infrastructure_score", some 82.0),
                  ("placement_index", some 88.5), ("lab_compliance_index", some 75.3),
                  ("overall_score", some 81.2)],
         sufficiency_percent := 90, compliance_count := 1, overall_score := 81.2,
         strengths := ["Good Infrastructure (82.0)", "Strong Placement (88.5)"],
         weaknesses := ["Lab Compliance needs improvement (75.3)"] }],
    skipped_batches := [],
    comparison_matrix :=
      [("fsr_score", "IIT-D 24-25", some 85.2), ("fsr_score", "NIT-T 24-25", some 78.9),
       ("infrastructure_score", "IIT-D 24-25", some 78.5), ("infrastructure_score", "NIT-T 24-25", some 82.0),
       ("placement_index", "IIT-D 24-25", some 92.3), ("placement_index", "NIT-T 24-25", some 88.5),
       ("lab_compliance_index", "IIT-D 24-25", some 82.1), ("lab_compliance_index", "NIT-T 24-25", some 75.3),
       ("overall_score", "IIT-D 24-25", some 84.5), ("overall_score", "NIT-T 24-25", some 81.2)],
    winner_institution := some "demo-batch-aicte-2024",
    winner_label := some "IIT-D 24-25",
    winner_name := some "Indian Institute of Technology Delhi",
    category_winners :=
      [("fsr_score", "demo-batch-aicte-2024"), ("placement_index", "demo-batch-aicte-2024"),
       ("infrastructure_score", "demo-batch-aicte-2023"), ("lab_compliance_index", "demo-batch-aicte-2024"),
       ("overall_score", "demo-batch-aicte-2024")],
    category_winners_labels :=
      [("fsr_score", "IIT-D 24-25"), ("placement_index", "IIT-D 24-25"),
       ("infrastructure_score", "NIT-T 24-25"), ("lab_compliance_index", "IIT-D 24-25"),
       ("overall_score", "IIT-D 24-25")],
    interpretation := some
      { best_overall_batch_id := "demo-batch-aicte-2024",
        best_overall_label := "IIT-D 24-25",
        best_overall_name := "Indian Institute of Technology Delhi",
        category_winners :=
          [{ kpi_key := "overall_score", kpi_name := "Overall Score",
             winner_batch_id := "demo-batch-aicte-2024", winner_label := "IIT-D 24-25",
             winner_value := 84.5, is_tie := false, tied_with := [] },
           { kpi_key := "placement_index", kpi_name := "Placement Index",
             winner_batch_id := "demo-batch-aicte-2024", winner_label := "IIT-D 24-25",
             winner_value := 92.3, is_tie := false, tied_with := [] },
           { kpi_key := "infrastructure_score", kpi_name := "Infrastructure Score",
             winner_batch_id := "demo-batch-aicte-2023", winner_label := "NIT-T 24-25",
             winner_value := 82.0, is_tie := false, tied_with := [] }],
        notes := ["IIT-D leads with overall score of 84.5", "IIT-D has zero compliance issues"] },
    valid_for_comparison := true,
    validation_message := none }

/-- The invalid response of the cross-department governance check: partial
institution, skip and matrix lists, with the distinct names enumerated. -/
def crossDeptResponse (st : CmpState) (names : List String) : ComparisonResponse :=
  { institutions := st.valid, skipped_batches := st.skipped,
    comparison_matrix := st.matrix, valid_for_comparison := false,
    validation_message := some (crossDeptMsg names) }

/-- The invalid response returned when fewer than 2 valid institutions
remain. -/
def tooFewResponse (st : CmpState) : ComparisonResponse :=
  { institutions := st.valid, skipped_batches := st.skipped,
    comparison_matrix := st.matrix, valid_for_comparison := false,
    validation_message := some (tooFewMsg st.valid.length st.skipped.length) }

/-- The valid comparison response: institutions sorted by overall score
descending (stable), global winner via the tie-break chain, category winners,
and interpretation notes. -/
def validResponse (fmt : Fmt) (st : CmpState) : ComparisonResponse :=
  let sortedV := st.valid.insertionSort overallR
  let winner := determineWinner sortedV
  let winner_bid := winner.map (fun w => w.batch_id)
  let winner_lbl := winner.map (fun w => w.short_label)
  let winner_name := winner.map (fun w => w.institution_name)
  let details := CANONICAL_KPIS.filterMap (categoryDetail fmt sortedV)
  let notes := buildNotes winner st.skipped.length
  { institutions := sortedV, skipped_batches := st.skipped,
    comparison_matrix := st.matrix,
    winner_institution := winner_bid, winner_label := winner_lbl,
    winner_name := winner_name,
    category_winners := details.map (fun d => (d.kpi_key, d.winner_batch_id)),
    category_winners_labels := details.map (fun d => (d.kpi_key, d.winner_label)),
    interpretation := some
      { best_overall_batch_id := winner_bid.getD "",
        best_overall_label := winner_lbl.getD "",
        best_overall_name := winner_name.getD "",
        category_winners := details, notes := notes },
    valid_for_comparison := true, validation_message := none }

/-- Dispatch over the collected state: cross-department check first, then the
minimum-count check, then the valid response. -/
def compareOutcome (fmt : Fmt) (st : CmpState) : ComparisonResponse :=
  let deptNames := (st.depts.map (fun p => p.2)).dedup
  if 1 < deptNames.length then crossDeptResponse st deptNames
  else if st.valid.length < 2 then tooFewResponse st
  else validResponse fmt st

/-- Embedding of the `/compare` endpoint `compare_institutions` over the
already-parsed id list.  The transparent 5-minute result cache consulted on
the non-demo path stores and replays exactly this computation (spec §4.6:
omitting the cache must reproduce identical output) and is not materialised. -/
def compare_institutions (fmt : Fmt) (db : List Batch) (ids : List String) :
    CompareResult :=
  if ids.any (fun i => sStartsWith i "demo-") then .ok demoResponse
  else if ids.length < 2 then .error 400 "Provide at least two batch_ids"
  else if 10 < ids.length then .error 400 "Maximum 10 institutions for comparison"
  else .ok (compareOutcome fmt (collectState fmt db ids))

/-- The institution list of a successful comparison outcome. -/
def okInsts : CompareResult → List InstitutionComparison
  | .ok r => r.institutions
  | .error _ _ => []

/-- The validity flag of a successful comparison outcome. -/
def okValid : CompareResult → Option Bool
  | .ok r => some r.valid_for_comparison
  | .error _ _ => none

/-- The validation message of a successful comparison outcome. -/
def okMsg : CompareResult → Option String
  | .ok r => r.validation_message
  | .error _ _ => none

/-- The global-winner id of a successful comparison outcome. -/
def okWinner : CompareResult → Option String
  | .ok r => r.winner_institution
  | .error _ _ => none

/-- The interpretation's category-winner records of a successful comparison
outcome. -/
def okCatDetails : CompareResult → List CategoryWinner
  | .ok r => (r.interpretation.map (fun it => it.category_winners)).getD []
  | .error _ _ => []

/-- The KPI-card bucketing of the ranking loop: map a lower-cased card name to
a canonical KPI key by substring matching, first match wins. -/
def cardBucket (nameLower : String) : Option String :=
  if sContains nameLower "fsr" then some "fsr_score"
  else if sContains nameLower "infrastructure" then some "infrastructure_score"
  else if sContains nameLower "placement" then some "placement_index"
  else if sContains nameLower "lab" then some "lab_compliance_index"
  else if sContains nameLower "overall" then some "overall_score"
  else none

/-- The `kpis` dict built by the ranking loop from the dashboard KPI cards;
later cards overwrite earlier ones landing in the same bucket. -/
def rankKpis (cards : List KPICard) : List (String × Option ℚ) :=
  cards.foldl (fun m c =>
    match cardBucket (sLower c.name) with
    | some k => assocSet m k c.value
    | none => m) []

/-- The total configured weight `sum(weight_map.values())`. -/
def totalWeight (wm : List (String × ℚ)) : ℚ :=
  (wm.map (fun p => p.2)).sum

/-- The weighted sum of the ranking loop: over weight-map entries with weight
strictly above 0 whose KPI is present and non-null. -/
def weightedSum (wm : List (String × ℚ)) (kpis : List (String × Option ℚ)) : ℚ :=
  wm.foldl (fun (acc : ℚ) p =>
    match kpis.lookup p.1 with
    | some (some v) => if (0 : ℚ) < p.2 then acc + p.2 * v else acc
    | _ => acc) 0

/-- The `valid_kpis` counter of the ranking loop. -/
def presentCount (wm : List (String × ℚ)) (kpis : List (String × Option ℚ)) :
    Nat :=
  wm.foldl (fun (acc : Nat) p =>
    match kpis.lookup p.1 with
    | some (some _) => if (0 : ℚ) < p.2 then acc + 1 else acc
    | _ => acc) 0

/-- Accumulator of the ranking loop: ranked entries and insufficient ids. -/
structure RankState where
  ranked : List RankingInstitution
  insufficient : List String
deriving DecidableEq, Repr

/-- One iteration of the ranking loop of `rank_institutions`: missing or
uncompleted batches go to the insufficient list, as do batches with zero total
weight or no present weighted KPI; otherwise the weighted score is computed
and a ranked entry appended.  (`get_dashboard_data` cannot fail here since the
batch was just found, so the `except` path adds nothing.) -/
def rankStep (fmt : Fmt) (db : List Batch) (wm : List (String × ℚ))
    (st : RankState) (bid : String) : RankState :=
  match findBatch db bid with
  | none => { st with insufficient := st.insufficient ++ [bid] }
  | some b =>
    if b.status ≠ "completed" then
      { st with insufficient := st.insufficient ++ [bid] }
    else
      let dash := get_dashboard_data b
      let kpis := rankKpis dash.kpi_cards
      if totalWeight wm = 0 then
        { st with insufficient := st.insufficient ++ [bid] }
      else if presentCount wm kpis = 0 then
        { st with insufficient := st.insufficient ++ [bid] }
      else
        let ranking_score := weightedSum wm kpis / totalWeight wm
        let inst_name := getRealInstName dash bid
        let short_label := fmt.shortLabel2 inst_name bid
        let sw := strengthsWeaknesses fmt kpis
        let inst : RankingInstitution :=
          { batch_id := bid, name := inst_name, short_label := short_label,
            mode := if b.mode = "" then "aicte" else b.mode,
            ranking_score := round2 ranking_score,
            fsr_score := lookupQ kpis "fsr_score",
            infrastructure_score := lookupQ kpis "infrastructure_score",
            placement_index := lookupQ kpis "placement_index",
            lab_compliance_index := lookupQ kpis "lab_compliance_index",
            overall_score :=
              match lookupQ kpis "overall_score" with
              | some x => if x = 0 then ranking_score else x
              | none => ranking_score,
            strengths := sw.1, weaknesses := sw.2 }
        { st with ranked := st.ranked ++ [inst] }

/-- Order realising the stable ranking-score-descending sort. -/
def rankR (a b : RankingInstitution) : Prop :=
  b.ranking_score ≤ a.ranking_score

instance : DecidableRel rankR :=
  fun a b => inferInstanceAs (Decidable (b.ranking_score ≤ a.ranking_score))

instance : IsTotal RankingInstitution rankR :=
  ⟨fun a b => le_total b.ranking_score a.ranking_score⟩

instance : IsTrans RankingInstitution rankR :=
  ⟨fun _ _ _ hab hbc => le_trans hbc hab⟩

/-- The ranking loop over all requested ids. -/
def rankCollect (fmt : Fmt) (db : List Batch) (ids : List String)
    (wm : List (String × ℚ)) : RankState :=
  ids.foldl (rankStep fmt db wm) ⟨[], []⟩

/-- Embedding of `rank_institutions` (compare.py): process every id, sort the
ranked entries by ranking score descending (stable), truncate to `top_n`, and
report every insufficient id with the fixed reason `no_kpis`. -/
def rank_institutions (fmt : Fmt) (db : List Batch) (ids : List String)
    (wm : List (String × ℚ)) (top_n : Nat) (label : String) : RankingResponse :=
  let st := rankCollect fmt db ids wm
  { institutions := (st.ranked.insertionSort rankR).take top_n,
    ranking_type := label, top_n := top_n,
    insufficient_batches := st.insufficient.map (fun bid => ⟨bid, "no_kpis"⟩) }

/-- Order on optional academic-year labels realising the SQL
`ORDER BY academic_year` (SQLite sorts NULLs first ascending). -/
def optStrLe (a b : Option String) : Bool :=
  match a, b with
  | none, _ => true
  | some _, none => false
  | some x, some y => decide (x ≤ y)

/-- Order for the `ORDER BY academic_year` of the historical query. -/
def yearR (a b : Batch) : Prop :=
  optStrLe a.academic_year b.academic_year = true

instance : DecidableRel yearR :=
  fun a b => inferInstanceAs (Decidable (optStrLe a.academic_year b.academic_year = true))

/-- Modelled from the spec: the qualifying predicate of `ProductionGuard.
validate_trends_data_contract` (services/production_guard.py is not among the
sources).  Spec §3: a historical series is formed from completed, non-invalid
submissions of the same institution+department identity. -/
def qualifiesForSeries (inst dept : String) (b : Batch) : Bool :=
  b.institution_name = some inst ∧ b.department_name = some dept ∧
    !b.is_invalid ∧ b.status = "completed"

/-- Modelled from the spec: `ProductionGuard.validate_trends_data_contract`
(services/production_guard.py is not among the sources).  Spec §3/§4.5: the
contract holds exactly when the qualifying submissions span at least 3
distinct academic years; it also returns the qualifying submissions. -/
def validate_trends_data_contract (batches : List Batch) (inst dept : String) :
    Bool × List Batch :=
  let q := batches.filter (qualifiesForSeries inst dept)
  (decide (3 ≤ ((q.filterMap (fun b => b.academic_year)).dedup.length)), q)

/-- One row of the hard-coded demo forecast table of `get_forecast`
(routers/dashboard.py lines 552-556). -/
structure ForecastPoint where
  year : Nat
  predicted_value : ℚ
  lower_bound : ℚ
  upper_bound : ℚ
  confidence : ℚ
deriving DecidableEq, Repr

/-- The hard-coded demo forecast payload of `get_forecast` (routers/
dashboard.py lines 548-567): `has_forecast = true` with a fixed three-point
forecast and model info.  The only input dependence is the KPI name
interpolated into the explanation. -/
structure DemoForecast where
  has_forecast : Bool
  can_forecast : Bool
  insufficient_data : Bool
  forecast : List ForecastPoint
  confidence_band : ℚ
  explanation : String
  method : String
  slope : ℚ
  intercept : ℚ
  r_squared : ℚ
  historical_points : Nat
deriving DecidableEq, Repr

/-- The demo-mode return value of `get_forecast`, transcribed literally. -/
def demoForecast (kpi_name : String) : DemoForecast :=
  { has_forecast := true, can_forecast := true, insufficient_data := false,
    forecast :=
      [⟨2025, 82.5, 78, 87, 0.85⟩,
       ⟨2026, 85.5, 80, 91, 0.75⟩,
       ⟨2027, 88.5, 82, 95, 0.65⟩],
    confidence_band := 0.9,
    explanation :=
      s!"Based on 3 years of historical data, {kpi_name} is projected to increase steadily.",
    method := "linear_regression", slope := 3.5, intercept := 65,
    r_squared := 0.92, historical_points := 3 }

/-- Outcome of the `/forecast/{batch_id}/{kpi_name}` endpoint: the hard-coded
demo payload, 404, a structured insufficient-data response
(`has_forecast = false`), or a forecast produced by the external
`ForecastService` — the service module is not among the sources, so its
output is represented by the exact arguments passed to `forecast_kpi` (valid
batches, KPI name, mode). -/
inductive ForecastResult
  | demo (payload : DemoForecast)
  | notFound
  | insufficient (reason : String)
  | produced (batches : List Batch) (kpi : String) (mode : String)
deriving DecidableEq, Repr

/-- Embedding of `get_forecast` (routers/dashboard.py): for a `demo-`-prefixed
batch id, the hard-coded `has_forecast = true` demo payload is returned before
any store lookup; otherwise 404 on a missing batch; structured insufficient
responses for an invalid batch, missing identity names, or a failed series
contract; otherwise the forecast-service call.  The route-level access
control (skipped when no user is attached) is outside the computation being
verified. -/
def get_forecast (db : List Batch) (bid : String) (kpi_name : String) :
    ForecastResult :=
  if sStartsWith bid "demo-" then .demo (demoForecast kpi_name)
  else
  match findBatch db bid with
  | none => .notFound
  | some b =>
    if b.is_invalid then
      .insufficient "Batch marked as invalid due to insufficient data"
    else if strTruthy b.institution_name = false ∨ strTruthy b.department_name = false then
      .insufficient "Batch missing institution_name or department_name"
    else
      let inst := b.institution_name.getD ""
      let dept := b.department_name.getD ""
      -- The historical query filters on institution name, department name,
      -- `is_invalid == 0` and `status == "completed"` — exactly the
      -- qualifying predicate of the series contract.
      let historical :=
        (db.filter (qualifiesForSeries inst dept)).insertionSort yearR
      let all_batches := b :: historical.filter (fun x => x.id ≠ bid)
      let c := validate_trends_data_contract all_batches inst dept
      if c.1 = false then
        .insufficient "Minimum 3 years of historical data required"
      else
        .produced c.2 kpi_name b.mode

/-- The distinct academic years spanned by the qualifying same-identity series
of a batch, read directly off the record store — the quantity the spec's
≥3-years contract is about. -/
def distinctSeriesYears (db : List Batch) (b : Batch) : Nat :=
  (((db.filter (qualifiesForSeries (b.institution_name.getD "") (b.department_name.getD ""))).filterMap
    (fun x => x.academic_year)).dedup).length

/-- Concrete fixture: eligible system submission A of department CS with
overall 84.5, placement 92.3, zero compliance flags (the spec's scenario
institution A). -/
def batchA : Batch :=
  { id := "batch_a", mode := "aicte", status := "completed", is_invalid := false,
    data_source := "system", institution_name := some "Alpha Institute",
    department_name := some "CS", academic_year := some "2024-25",
    kpi_results := [("overall_score", .record (some 84.5) none),
                    ("placement_index", .bare 92.3),
                    ("lab_compliance_index", .bare 70)],
    sufficiency_pct := 95, compliance_count := 0, files := 0,
    blocks := [⟨false, []⟩] }

/-- Concrete fixture: eligible system submission B of department CS with
overall 81.2, placement 88.5, one compliance flag (the spec's scenario
institution B). -/
def batchB : Batch :=
  { id := "batch_b", mode := "aicte", status := "completed", is_invalid := false,
    data_source := "system", institution_name := some "Beta Institute",
    department_name := some "CS", academic_year := some "2024-25",
    kpi_results := [("overall_score", .record (some 81.2) none),
                    ("placement_index", .bare 88.5),
                    ("lab_compliance_index", .bare 70)],
    sufficiency_pct := 90, compliance_count := 1, files := 0,
    blocks := [⟨false, []⟩] }

/-- Concrete fixture: submission C of department EE that passes the
eligibility guard (stored overall score −5 is neither null nor 0) but is later
skipped by the comparison loop, whose KPI screen keeps only values above 0. -/
def batchC : Batch :=
  { id := "batch_c", mode := "aicte", status := "completed", is_invalid := false,
    data_source := "system", institution_name := some "Ceta Institute",
    department_name := some "EE", academic_year := some "2024-25",
    kpi_results := [("overall_score", .bare (-5))],
    sufficiency_pct := 50, compliance_count := 0, files := 0,
    blocks := [⟨false, []⟩] }

/-- Concrete two-submission store for the scenario comparison. -/
def dbAB : List Batch := [batchA, batchB]

/-- Concrete three-submission store spanning departments CS and EE. -/
def dbABC : List Batch := [batchA, batchB, batchC]

/-- Concrete fixture: completed submission whose stored overall score 84.553
needs more than two decimal places. -/
def batchR : Batch :=
  { id := "batch_r", mode := "aicte", status := "completed", is_invalid := false,
    data_source := "system", institution_name := some "Rho Institute",
    department_name := some "CS", academic_year := some "2024-25",
    kpi_results := [("overall_score", .bare 84.553)],
    sufficiency_pct := 80, compliance_count := 0, files := 0,
    blocks := [⟨false, []⟩] }

/-- Concrete one-submission store for the rounding counterexample. -/
def dbR : List Batch := [batchR]

/-- Concrete fixture: completed submission whose only KPI is stored as
exactly 0. -/
def batchZ : Batch :=
  { id := "batch_z", mode := "aicte", status := "completed", is_invalid := false,
    data_source := "system", institution_name := some "Zeta Institute",
    department_name := some "CS", academic_year := some "2024-25",
    kpi_results := [("overall_score", .bare 0)],
    sufficiency_pct := 80, compliance_count := 0, files := 0,
    blocks := [⟨false, []⟩] }

/-- The same submission with the zero-valued KPI entry absent instead. -/
def batchZabs : Batch := { batchZ with kpi_results := [] }

/-- Store holding the zero-valued variant. -/
def dbZ : List Batch := [batchZ]

/-- Store holding the absent-valued variant. -/
def dbZabs : List Batch := [batchZabs]

/-- Concrete fixture: a completed submission whose validity flag is set — the
eligibility guard rejects it as `batch_invalid`, yet the ranking loop never
consults that flag. -/
def batchInv : Batch :=
  { id := "inv_b", mode := "aicte", status := "completed", is_invalid := true,
    data_source := "system", institution_name := some "Iota Institute",
    department_name := some "CS", academic_year := some "2024-25",
    kpi_results := [("overall_score", .bare 80)],
    sufficiency_pct := 80, compliance_count := 0, files := 0,
    blocks := [⟨false, []⟩] }

/-- Store for the ranking-eligibility counterexample. -/
def dbInv : List Batch := [batchInv]

/-- Concrete fixture: a qualifying historical submission of identity
(Gamma Institute, ME) for academic year 2022-23. -/
def batchH1 : Batch :=
  { id := "hist_1", mode := "aicte", status := "completed", is_invalid := false,
    data_source := "system", institution_name := some "Gamma Institute",
    department_name := some "ME", academic_year := some "2022-23",
    kpi_results := [("overall_score", .bare 70)],
    sufficiency_pct := 80, compliance_count := 0, files := 0,
    blocks := [⟨false, []⟩] }

/-- A second qualifying year (2023-24) of the same identity — two distinct
years in total, one short of the series contract. -/
def batchH2 : Batch :=
  { batchH1 with id := "hist_2", academic_year := some "2023-24",
                 kpi_results := [("overall_score", .bare 75)] }

/-- Store with a two-year historical series. -/
def dbH : List Batch := [batchH1, batchH2]

/-- Concrete fixture: an existing submission whose id carries the `demo-`
prefix and whose qualifying same-identity series spans a single academic
year — far short of the series contract. -/
def batchDemo : Batch := { batchH1 with id := "demo-hist" }

/-- Store holding only the demo-prefixed submission. -/
def dbDemo : List Batch := [batchDemo]

/-! ### General lemmas about the comparators -/

theorem tupLe_iff (a1 a2 a3 a4 b1 b2 b3 b4 : ℚ) :
    tupLe (a1, a2, a3, a4) (b1, b2, b3, b4) = true ↔
      a1 < b1 ∨ a1 = b1 ∧ (a2 < b2 ∨ a2 = b2 ∧ (a3 < b3 ∨ a3 = b3 ∧ a4 ≤ b4)) := by
  simp only [tupLe]
  by_cases h1 : a1 = b1
  · subst h1
    by_cases h2 : a2 = b2
    · subst h2
      by_cases h3 : a3 = b3
      · subst h3
        simp
      · simp [h3]
    · simp [h2]
  · simp [h1]

theorem tupLe_refl (a : ℚ × ℚ × ℚ × ℚ) : tupLe a a = true := by
  obtain ⟨a1, a2, a3, a4⟩ := a
  simp [tupLe]

theorem tupLe_trans : ∀ a b c : ℚ × ℚ × ℚ × ℚ,
    tupLe a b = true → tupLe b c = true → tupLe a c = true := by
  rintro ⟨a1, a2, a3, a4⟩ ⟨b1, b2, b3, b4⟩ ⟨c1, c2, c3, c4⟩ hab hbc
  rw [tupLe_iff] at hab hbc ⊢
  rcases hab with h1 | ⟨rfl, hab⟩
  · rcases hbc with h1' | ⟨rfl, _⟩
    · exact Or.inl (h1.trans h1')
    · exact Or.inl h1
  · rcases hbc with h1' | ⟨rfl, hbc⟩
    · exact Or.inl h1'
    · refine Or.inr ⟨rfl, ?_⟩
      rcases hab with h2 | ⟨rfl, hab⟩
      · rcases hbc with h2' | ⟨rfl, _⟩
        · exact Or.inl (h2.trans h2')
        · exact Or.inl h2
      · rcases hbc with h2' | ⟨rfl, hbc⟩
        · exact Or.inl h2'
        · refine Or.inr ⟨rfl, ?_⟩
          rcases hab with h3 | ⟨rfl, hab⟩
          · rcases hbc with h3' | ⟨rfl, _⟩
            · exact Or.inl (h3.trans h3')
            · exact Or.inl h3
          · rcases hbc with h3' | ⟨rfl, hbc⟩
            · exact Or.inl h3'
            · exact Or.inr ⟨rfl, hab.trans hbc⟩

theorem tupLe_total : ∀ a b : ℚ × ℚ × ℚ × ℚ,
    (tupLe a b || tupLe b a) = true := by
  rintro ⟨a1, a2, a3, a4⟩ ⟨b1, b2, b3, b4⟩
  simp only [Bool.or_eq_true, tupLe_iff]
  rcases lt_trichotomy a1 b1 with h | rfl | h
  · exact Or.inl (Or.inl h)
  · rcases lt_trichotomy a2 b2 with h | rfl | h
    · exact Or.inl (Or.inr ⟨rfl, Or.inl h⟩)
    · rcases lt_trichotomy a3 b3 with h | rfl | h
      · exact Or.inl (Or.inr ⟨rfl, Or.inr ⟨rfl, Or.inl h⟩⟩)
      · rcases le_total a4 b4 with h | h
        · exact Or.inl (Or.inr ⟨rfl, Or.inr ⟨rfl, Or.inr ⟨rfl, h⟩⟩⟩)
        · exact Or.inr (Or.inr ⟨rfl, Or.inr ⟨rfl, Or.inr ⟨rfl, h⟩⟩⟩)
      · exact Or.inr (Or.inr ⟨rfl, Or.inr ⟨rfl, Or.inl h⟩⟩)
    · exact Or.inr (Or.inr ⟨rfl, Or.inl h⟩)
  · exact Or.inr (Or.inl h)

instance : IsTrans InstitutionComparison chainR :=
  ⟨fun _ _ _ hab hbc => tupLe_trans _ _ _ hbc hab⟩

instance : IsTotal InstitutionComparison chainR :=
  ⟨fun a b => by
    have h := tupLe_total (sortKeyIC b) (sortKeyIC a)
    simp only [Bool.or_eq_true] at h
    exact h.imp (fun h => h) (fun h => h)⟩

/-! ### Claim C4 — eligibility rejection order -/

/-- The eligibility check written as the claim states it: the ordered chain of
rejection conditions, returning the reason code of the first failing one
(missing → batch_not_found; validity flag → batch_invalid; status →
status_<status>; zero documents, user-sourced only → no_processed_documents;
zero non-invalid blocks → no_valid_blocks; null-or-zero overall →
no_valid_kpis). -/
def eligReason (db : List Batch) (bid : String) : Option String :=
  match findBatch db bid with
  | none => some "batch_not_found"
  | some b =>
    if b.is_invalid then some "batch_invalid"
    else if b.status ≠ "completed" then some ("status_" ++ b.status)
    else if b.data_source ≠ "system" ∧ b.files = 0 then some "no_processed_documents"
    else if (b.blocks.filter (fun bl => !bl.is_invalid)).length = 0 then some "no_valid_blocks"
    else if getKpiValue b.kpi_results "overall_score" = none ∨
            getKpiValue b.kpi_results "overall_score" = some 0 then some "no_valid_kpis"
    else none

/-- C4: the eligibility check on a single submission evaluates its rejection
conditions in exactly the claimed order, returning the reason code of the
first failing condition (and eligibility holds exactly when no condition
fails).  (The `batch_invalid` condition delegates to the spec-modelled
`ProductionGuard`, see `validate_batch`.) -/
theorem claim_C4 (db : List Batch) (bid : String) :
    (validate_batch db bid).skip_reason = eligReason db bid ∧
    (validate_batch db bid).is_valid = (eligReason db bid).isNone := by
  unfold validate_batch eligReason
  cases hfb : findBatch db bid with
  | none => simp
  | some b =>
    by_cases h1 : b.is_invalid
    · simp [h1]
    · by_cases h2 : b.status = "completed"
      · by_cases hs : b.data_source = "system" <;>
          by_cases hbl : (b.blocks.filter (fun bl => !bl.is_invalid)).length = 0 <;>
          by_cases hf : b.files = 0 <;>
          by_cases hk : getKpiValue b.kpi_results "overall_score" = none ∨
            getKpiValue b.kpi_results "overall_score" = some 0 <;>
          simp [h1, h2, hs, hbl, hf, hk]
      · simp [h1, h2]

/-! ### Claim C9 — forecast insufficiency -/

theorem findBatch_mem {db : List Batch} {bid : String} {b : Batch}
    (h : findBatch db bid = some b) : b ∈ db ∧ b.id = bid := by
  unfold findBatch at h
  have hm := List.mem_of_find?_eq_some h
  have hp := List.find?_some h
  simp only [decide_eq_true_eq] at hp
  exact ⟨hm, hp⟩

theorem series_years_len (db : List Batch) (bid : String) (b : Batch)
    (hnd : (db.map (fun x => x.id)).Nodup)
    (hfound : findBatch db bid = some b) (inst dept : String) :
    ((((b :: ((db.filter (qualifiesForSeries inst dept)).insertionSort yearR).filter
        (fun x => x.id ≠ bid)).filter (qualifiesForSeries inst dept)).filterMap
        (fun x => x.academic_year)).dedup).length =
      ((((db.filter (qualifiesForSeries inst dept)).filterMap
        (fun x => x.academic_year)).dedup).length) := by
  obtain ⟨hmem, hid⟩ := findBatch_mem hfound
  rw [← List.card_toFinset, ← List.card_toFinset]
  congr 1
  ext y
  simp only [List.mem_toFinset, List.mem_filterMap, List.mem_filter, List.mem_cons,
    List.mem_insertionSort, decide_eq_true_eq]
  constructor
  · rintro ⟨x, ⟨hx | ⟨⟨hxdb, hq⟩, _⟩, hQ⟩, hy⟩
    · exact ⟨x, ⟨hx ▸ hmem, hQ⟩, hy⟩
    · exact ⟨x, ⟨hxdb, hQ⟩, hy⟩
  · rintro ⟨x, ⟨hxdb, hQ⟩, hy⟩
    by_cases hxb : x.id = bid
    · have hxbeq : x = b := by
        have := List.inj_on_of_nodup_map hnd hxdb hmem
        exact this (by rw [hxb, hid])
      exact ⟨x, ⟨Or.inl hxbeq, hQ⟩, hy⟩
    · exact ⟨x, ⟨Or.inr ⟨⟨hxdb, hQ⟩, hxb⟩, hQ⟩, hy⟩

/-- C9 (amended to non-demo ids): for every existing batch whose id does not
carry the `demo-` prefix and whose institution or department name is unset
(null or empty), or whose qualifying same-identity series (completed,
non-invalid submissions) spans fewer than 3 distinct academic years, the
forecast operation returns a structured insufficient-data result — it never
throws (the embedding is a total function) and no forecast is produced.  A
`demo-`-prefixed id instead receives the hard-coded `has_forecast = true`
demo payload before any store lookup (see the counterexample).
The series contract itself is spec-modelled (`validate_trends_data_contract`).
The record store is assumed to have distinct primary keys. -/
theorem claim_C9_amended (db : List Batch) (bid kpi : String) (b : Batch)
    (hdm : sStartsWith bid "demo-" = false)
    (hnd : (db.map (fun x => x.id)).Nodup)
    (hfound : findBatch db bid = some b)
    (hcond : strTruthy b.institution_name = false ∨
      strTruthy b.department_name = false ∨ distinctSeriesYears db b < 3) :
    ∃ reason, get_forecast db bid kpi = .insufficient reason := by
  unfold get_forecast
  rw [if_neg (by simp [hdm]), hfound]
  dsimp only
  by_cases hinv : b.is_invalid
  · exact ⟨"Batch marked as invalid due to insufficient data", by rw [if_pos hinv]⟩
  · rw [if_neg hinv]
    by_cases hname : strTruthy b.institution_name = false ∨
      strTruthy b.department_name = false
    · exact ⟨"Batch missing institution_name or department_name", by rw [if_pos hname]⟩
    · rw [if_neg hname]
      have hyears : distinctSeriesYears db b < 3 := by
        rcases hcond with h | h | h
        · exact absurd (Or.inl h) hname
        · exact absurd (Or.inr h) hname
        · exact h
      have hlen := series_years_len db bid b hnd hfound
        (b.institution_name.getD "") (b.department_name.getD "")
      have hc : (validate_trends_data_contract
          (b :: (((db.filter (qualifiesForSeries (b.institution_name.getD "")
            (b.department_name.getD ""))).insertionSort yearR).filter
            (fun x => x.id ≠ bid)))
          (b.institution_name.getD "") (b.department_name.getD "")).1 = false := by
        unfold validate_trends_data_contract
        dsimp only
        rw [decide_eq_false_iff_not, not_le, hlen]
        exact hyears
      refine ⟨"Minimum 3 years of historical data required", ?_⟩
      simp only [ne_eq, decide_not] at hc ⊢
      simp [hc]

/-- Witness for C9's amended claim: the two-year series of the non-demo id
`hist_1` yields an insufficient forecast. -/
theorem claim_C9_witness :
    (sStartsWith "hist_1" "demo-" = false ∧
      (dbH.map (fun x => x.id)).Nodup ∧ findBatch dbH "hist_1" = some batchH1 ∧
      distinctSeriesYears dbH batchH1 < 3) ∧
    ∃ reason, get_forecast dbH "hist_1" "overall_score" = .insufficient reason :=
  ⟨⟨by with_unfolding_all rfl, by with_unfolding_all decide,
    by with_unfolding_all rfl, by with_unfolding_all decide⟩,
   claim_C9_amended dbH "hist_1" "overall_score" batchH1
     (by with_unfolding_all rfl) (by with_unfolding_all decide)
     (by with_unfolding_all rfl)
     (Or.inr (Or.inr (by with_unfolding_all decide)))⟩

/-- Counterexample for C9 as stated: the existing submission `demo-hist` has a
one-year qualifying series — far short of the 3-year contract — yet the
forecast operation returns the hard-coded demo payload with
`has_forecast = true`, not a structured insufficient-data result: the demo
branch fires on the id prefix before any store lookup or series check. -/
theorem claim_C9_counterexample :
    findBatch dbDemo "demo-hist" = some batchDemo ∧
    distinctSeriesYears dbDemo batchDemo < 3 ∧
    get_forecast dbDemo "demo-hist" "overall_score" =
      .demo (demoForecast "overall_score") ∧
    (demoForecast "overall_score").has_forecast = true ∧
    ∀ reason, get_forecast dbDemo "demo-hist" "overall_score" ≠
      ForecastResult.insufficient reason := by
  refine ⟨by with_unfolding_all rfl, by with_unfolding_all decide,
    by with_unfolding_all rfl, rfl, ?_⟩
  intro reason h
  rw [show get_forecast dbDemo "demo-hist" "overall_score" =
    .demo (demoForecast "overall_score") from by with_unfolding_all rfl] at h
  simp at h

/-! ### Claim C8 — ranking order, stability, truncation -/

/-- C8: for every weight map with positive total weight and every input, the
ranked list is the stable ranking-score-descending sort of the processed
entries truncated to `top_n`: it is pairwise non-increasing in
`ranking_score`, has at most `top_n` entries, and entries with equal scores
keep their original processing order (no secondary tie-break). -/
theorem claim_C8 (fmt : Fmt) (db : List Batch) (ids : List String)
    (wm : List (String × ℚ)) (top_n : Nat) (label : String)
    (_hw : 0 < totalWeight wm) :
    (rank_institutions fmt db ids wm top_n label).institutions =
      ((rankCollect fmt db ids wm).ranked.insertionSort rankR).take top_n ∧
    (rank_institutions fmt db ids wm top_n label).institutions.Pairwise
      (fun a b => b.ranking_score ≤ a.ranking_score) ∧
    (rank_institutions fmt db ids wm top_n label).institutions.length ≤ top_n ∧
    (∀ a b, [a, b].Sublist (rankCollect fmt db ids wm).ranked →
      a.ranking_score = b.ranking_score →
      [a, b].Sublist ((rankCollect fmt db ids wm).ranked.insertionSort rankR)) := by
  refine ⟨rfl, ?_, ?_, ?_⟩
  · have hs := List.sorted_insertionSort rankR ((rankCollect fmt db ids wm).ranked)
    exact hs.sublist (List.take_sublist _ _)
  · exact List.length_take_le _ _
  · intro a b hsub heq
    exact List.pair_sublist_insertionSort (le_of_eq heq.symm) hsub

/-- Witness for C8 at the concrete two-batch ranking. -/
theorem claim_C8_witness :
    (0 < totalWeight [("overall_score", (1 : ℚ))]) ∧
    ((rank_institutions fmt0 dbAB ["batch_a", "batch_b"]
        [("overall_score", (1 : ℚ))] 2 "Overall Score").institutions =
      ((rankCollect fmt0 dbAB ["batch_a", "batch_b"]
        [("overall_score", (1 : ℚ))]).ranked.insertionSort rankR).take 2 ∧
    (rank_institutions fmt0 dbAB ["batch_a", "batch_b"]
        [("overall_score", (1 : ℚ))] 2 "Overall Score").institutions.Pairwise
      (fun a b => b.ranking_score ≤ a.ranking_score) ∧
    (rank_institutions fmt0 dbAB ["batch_a", "batch_b"]
        [("overall_score", (1 : ℚ))] 2 "Overall Score").institutions.length ≤ 2 ∧
    (∀ a b, [a, b].Sublist (rankCollect fmt0 dbAB ["batch_a", "batch_b"]
        [("overall_score", (1 : ℚ))]).ranked →
      a.ranking_score = b.ranking_score →
      [a, b].Sublist ((rankCollect fmt0 dbAB ["batch_a", "batch_b"]
        [("overall_score", (1 : ℚ))]).ranked.insertionSort rankR))) :=
  ⟨by with_unfolding_all decide,
   claim_C8 fmt0 dbAB ["batch_a", "batch_b"] [("overall_score", (1 : ℚ))] 2
     "Overall Score" (by with_unfolding_all decide)⟩

/-! ### Claim C6 — ranking eligibility and skip reasons -/

/-- The reduced eligibility check the ranking loop actually applies: the
submission must exist, be completed, the total weight must be nonzero, and at
least one positive-weight metric must be present. -/
def rankIneligible (db : List Batch) (wm : List (String × ℚ)) (bid : String) :
    Bool :=
  match findBatch db bid with
  | none => true
  | some b =>
    if b.status ≠ "completed" then true
    else if totalWeight wm = 0 then true
    else decide (presentCount wm (rankKpis (dashboardCards b.kpi_results)) = 0)

theorem rankCollect_insufficient (fmt : Fmt) (db : List Batch)
    (wm : List (String × ℚ)) :
    ∀ (ids : List String) (st : RankState),
      (ids.foldl (rankStep fmt db wm) st).insufficient =
        st.insufficient ++ ids.filter (rankIneligible db wm) := by
  intro ids
  induction ids with
  | nil => intro st; simp
  | cons bid rest ih =>
    intro st
    simp only [List.foldl_cons, List.filter_cons]
    rw [ih]
    cases hfb : findBatch db bid with
    | none => simp [rankStep, rankIneligible, hfb]
    | some b =>
      by_cases hst : b.status = "completed"
      · by_cases htw : totalWeight wm = 0
        · simp [rankStep, rankIneligible, get_dashboard_data, hfb, hst, htw]
        · by_cases hpc :
            presentCount wm (rankKpis (dashboardCards b.kpi_results)) = 0
          · simp [rankStep, rankIneligible, get_dashboard_data, hfb, hst, htw, hpc]
          · simp [rankStep, rankIneligible, get_dashboard_data, hfb, hst, htw, hpc]
      · simp [rankStep, rankIneligible, hfb, hst]

/-- C6 (amended): the ranking loop does not run the Eligibility Guard; it
applies only the reduced check `rankIneligible`, the insufficient list is
exactly the ids failing that check in input order, and every one of them is
reported with the fixed reason `no_kpis` regardless of the actual cause. -/
theorem claim_C6_amended (fmt : Fmt) (db : List Batch) (ids : List String)
    (wm : List (String × ℚ)) (top_n : Nat) (label : String) :
    (rank_institutions fmt db ids wm top_n label).insufficient_batches =
      (ids.filter (rankIneligible db wm)).map
        (fun bid => { batch_id := bid, reason := "no_kpis" }) ∧
    ∀ s ∈ (rank_institutions fmt db ids wm top_n label).insufficient_batches,
      s.reason = "no_kpis" := by
  have h := rankCollect_insufficient fmt db wm ids ⟨[], []⟩
  simp only [List.nil_append] at h
  have h1 : (rank_institutions fmt db ids wm top_n label).insufficient_batches =
      (ids.filter (rankIneligible db wm)).map
        (fun bid => { batch_id := bid, reason := "no_kpis" }) := by
    show ((rankCollect fmt db ids wm).insufficient).map _ = _
    rw [show (rankCollect fmt db ids wm).insufficient =
      ids.filter (rankIneligible db wm) from h]
  refine ⟨h1, ?_⟩
  intro s hs
  rw [h1] at hs
  obtain ⟨bid, _, rfl⟩ := List.mem_map.1 hs
  rfl

/-- Counterexample for C6 as stated: a missing submission is reported with
reason `no_kpis`, not the guard's `batch_not_found`; and a submission the
guard rejects as `batch_invalid` (validity flag set) is nevertheless ranked —
the guard is not applied and reasons are not passed through. -/
theorem claim_C6_counterexample :
    (rank_institutions fmt0 dbInv ["missing_id", "inv_b"] [("overall_score", 1)]
        5 "Overall Score").insufficient_batches =
      [{ batch_id := "missing_id", reason := "no_kpis" }] ∧
    (validate_batch dbInv "missing_id").skip_reason = some "batch_not_found" ∧
    ("no_kpis" : String) ≠ "batch_not_found" ∧
    ((rank_institutions fmt0 dbInv ["missing_id", "inv_b"] [("overall_score", 1)]
        5 "Overall Score").institutions.map (fun e => e.batch_id)) = ["inv_b"] ∧
    (validate_batch dbInv "inv_b").is_valid = false ∧
    (validate_batch dbInv "inv_b").skip_reason = some "batch_invalid" := by
  set_option maxRecDepth 4000 in with_unfolding_all decide

/-! ### Claim C2 — ranking score formula -/

/-- The claim's numerator, written as it is specified: the sum of
`weight_k × value_k` over the configured metrics whose value is present. -/
def specPresentSum (wm : List (String × ℚ)) (kpis : List (String × Option ℚ)) :
    ℚ :=
  match wm with
  | [] => 0
  | p :: rest =>
    (match kpis.lookup p.1 with
     | some (some v) => p.2 * v
     | _ => 0) + specPresentSum rest kpis

theorem weightedSum_aux (kpis : List (String × Option ℚ)) :
    ∀ (wm : List (String × ℚ)) (acc : ℚ), (∀ p ∈ wm, 0 ≤ p.2) →
      wm.foldl (fun (acc : ℚ) p =>
        match kpis.lookup p.1 with
        | some (some v) => if (0 : ℚ) < p.2 then acc + p.2 * v else acc
        | _ => acc) acc = acc + specPresentSum wm kpis := by
  intro wm
  induction wm with
  | nil => intro acc _; simp [specPresentSum]
  | cons p rest ih =>
    intro acc hw
    have hw' : ∀ q ∈ rest, 0 ≤ q.2 := fun q hq => hw q (List.mem_cons_of_mem _ hq)
    simp only [List.foldl_cons, specPresentSum]
    cases hlk : kpis.lookup p.1 with
    | none => dsimp only; rw [ih _ hw']; ring
    | some o =>
      cases o with
      | none => dsimp only; rw [ih _ hw']; ring
      | some v =>
        dsimp only
        by_cases hp : (0 : ℚ) < p.2
        · rw [if_pos hp, ih _ hw']; ring
        · have hz : p.2 = 0 :=
            le_antisymm (not_lt.1 hp) (hw p (List.mem_cons_self _ _))
          rw [if_neg hp, ih _ hw', hz]; ring

theorem weightedSum_eq_spec (wm : List (String × ℚ))
    (kpis : List (String × Option ℚ)) (hw : ∀ p ∈ wm, 0 ≤ p.2) :
    weightedSum wm kpis = specPresentSum wm kpis := by
  unfold weightedSum
  rw [weightedSum_aux kpis wm 0 hw, zero_add]

/-- A ranked entry carries the id of a stored submission and the rounded
weighted score computed from that submission's dashboard KPI cards. -/
def rankEntryOk (db : List Batch) (wm : List (String × ℚ))
    (e : RankingInstitution) : Prop :=
  ∃ b, findBatch db e.batch_id = some b ∧
    e.ranking_score =
      round2 (weightedSum wm (rankKpis (dashboardCards b.kpi_results)) /
        totalWeight wm)

theorem rankCollect_ranked_ok (fmt : Fmt) (db : List Batch)
    (wm : List (String × ℚ)) :
    ∀ (ids : List String) (st : RankState),
      (∀ e ∈ st.ranked, rankEntryOk db wm e) →
      ∀ e ∈ (ids.foldl (rankStep fmt db wm) st).ranked, rankEntryOk db wm e := by
  intro ids
  induction ids with
  | nil => intro st h; exact h
  | cons bid rest ih =>
    intro st h
    simp only [List.foldl_cons]
    apply ih
    intro e he
    unfold rankStep at he
    cases hfb : findBatch db bid with
    | none =>
      rw [hfb] at he
      exact h e he
    | some b =>
      rw [hfb] at he
      dsimp only at he
      split_ifs at he <;>
        first
          | exact h e he
          | (simp only [List.mem_append, List.mem_singleton] at he
             rcases he with he | rfl
             · exact h e he
             · exact ⟨b, hfb, rfl⟩)

/-- C2 (amended): for every submission ranked with non-negative weights and
positive total weight, the reported `ranking_score` is the claim's quotient —
Σ(weight × value over present metrics) over the total configured weight —
rounded to two decimal places (Python `round(x, 2)`), rather than the exact
quotient. -/
theorem claim_C2_amended (fmt : Fmt) (db : List Batch) (ids : List String)
    (wm : List (String × ℚ)) (top_n : Nat) (label : String)
    (hw : ∀ p ∈ wm, 0 ≤ p.2) (_ht : 0 < totalWeight wm) :
    ∀ e ∈ (rank_institutions fmt db ids wm top_n label).institutions,
      ∃ b, findBatch db e.batch_id = some b ∧
        e.ranking_score =
          round2 (specPresentSum wm (rankKpis (dashboardCards b.kpi_results)) /
            totalWeight wm) := by
  intro e he
  have hmem : e ∈ (rankCollect fmt db ids wm).ranked := by
    have h1 : e ∈ (rankCollect fmt db ids wm).ranked.insertionSort rankR :=
      List.mem_of_mem_take he
    exact (List.mem_insertionSort rankR).1 h1
  obtain ⟨b, hb, hs⟩ :=
    rankCollect_ranked_ok fmt db wm ids ⟨[], []⟩ (by simp) e hmem
  exact ⟨b, hb, by rw [hs, weightedSum_eq_spec wm _ hw]⟩

/-- Witness for C2's amended claim at the concrete two-batch ranking. -/
theorem claim_C2_witness :
    ((∀ p ∈ [("overall_score", (1 : ℚ))], 0 ≤ p.2) ∧
      0 < totalWeight [("overall_score", (1 : ℚ))]) ∧
    (∀ e ∈ (rank_institutions fmt0 dbAB ["batch_a", "batch_b"]
        [("overall_score", (1 : ℚ))] 2 "Overall Score").institutions,
      ∃ b, findBatch dbAB e.batch_id = some b ∧
        e.ranking_score =
          round2 (specPresentSum [("overall_score", (1 : ℚ))]
            (rankKpis (dashboardCards b.kpi_results)) /
          totalWeight [("overall_score", (1 : ℚ))])) :=
  ⟨⟨by with_unfolding_all decide, by with_unfolding_all decide⟩,
   claim_C2_amended fmt0 dbAB ["batch_a", "batch_b"] [("overall_score", (1 : ℚ))]
     2 "Overall Score" (by with_unfolding_all decide) (by with_unfolding_all decide)⟩

/-- Counterexample for C2 as stated: with weight map `{overall_score: 1}` and
a stored overall score of 84.553, the exact quotient is 84.553 but the
reported `ranking_score` is the rounded 84.55 — the two differ. -/
theorem claim_C2_counterexample :
    ((rank_institutions fmt0 dbR ["batch_r"] [("overall_score", 1)] 2
        "Overall Score").institutions.map (fun e => e.ranking_score)) =
      [(1691 : ℚ)/20] ∧
    specPresentSum [("overall_score", 1)]
        (rankKpis (dashboardCards batchR.kpi_results)) /
      totalWeight [("overall_score", 1)] = (84553 : ℚ)/1000 ∧
    ((1691 : ℚ)/20) ≠ (84553 : ℚ)/1000 :=
  ⟨by with_unfolding_all rfl, by with_unfolding_all rfl,
   by with_unfolding_all decide⟩

/-! ### Claim C1 — global winner and output ordering -/

/-- A successful, valid, non-demo comparison is exactly the valid-branch
response over the collected loop state. -/
theorem compare_ok_valid (fmt : Fmt) (db : List Batch) (ids : List String)
    (r : ComparisonResponse)
    (hnd : ids.any (fun i => sStartsWith i "demo-") = false)
    (h : compare_institutions fmt db ids = .ok r)
    (hv : r.valid_for_comparison = true) :
    r = validResponse fmt (collectState fmt db ids) := by
  unfold compare_institutions at h
  rw [hnd] at h
  rw [if_neg (by simp : ¬((false : Bool) = true))] at h
  split_ifs at h
  injection h with h
  rw [← h] at hv ⊢
  simp only [compareOutcome] at hv ⊢
  split_ifs at hv ⊢ <;>
    first
      | rfl
      | simp [crossDeptResponse] at hv
      | simp [tooFewResponse] at hv

/-- The scenario response: `compare([A, B])` over the concrete two-batch
store. -/
def rAB : ComparisonResponse :=
  validResponse fmt0 (collectState fmt0 dbAB ["batch_a", "batch_b"])

/-- C1: in every valid non-demo comparison, the institution list is exactly
the stable overall-score-descending sort of the collected valid institutions
(the tie-break chain does not re-rank it), it is pairwise non-increasing in
overall score, and the global winner is an institution of the list whose
tie-break key tuple (overall desc, placement desc, sufficiency desc,
compliance asc — compared lexicographically in strict priority order) is
greatest, i.e. at least every other institution's.  In particular, in the
concrete scenario A(overall 84.5, placement 92.3, compliance 0) vs
B(overall 81.2, placement 88.5, compliance 1) the winner is A. -/
theorem claim_C1 (fmt : Fmt) (db : List Batch) (ids : List String)
    (r : ComparisonResponse)
    (hnd : ids.any (fun i => sStartsWith i "demo-") = false)
    (h : compare_institutions fmt db ids = .ok r)
    (hv : r.valid_for_comparison = true) :
    r.institutions = (collectState fmt db ids).valid.insertionSort overallR ∧
    r.institutions.Pairwise (fun a b => b.overall_score ≤ a.overall_score) ∧
    (∀ w, r.winner_institution = some w →
      ∃ iw ∈ r.institutions, iw.batch_id = w ∧
        ∀ i ∈ r.institutions, tupLe (sortKeyIC i) (sortKeyIC iw) = true) ∧
    okWinner (compare_institutions fmt0 dbAB ["batch_a", "batch_b"]) =
      some "batch_a" := by
  have hr := compare_ok_valid fmt db ids r hnd h hv
  subst hr
  refine ⟨rfl, ?_, ?_, by with_unfolding_all rfl⟩
  · exact List.sorted_insertionSort overallR (collectState fmt db ids).valid
  · intro w hw
    have hw' : ((((collectState fmt db ids).valid.insertionSort
        overallR).insertionSort chainR).head?).map (fun x => x.batch_id) =
        some w := hw
    cases hcs : ((collectState fmt db ids).valid.insertionSort
        overallR).insertionSort chainR with
    | nil => rw [hcs] at hw'; simp at hw'
    | cons iw tail =>
      rw [hcs] at hw'
      have hbid : iw.batch_id = w := by simpa using hw'
      have hiw_mem : iw ∈ (collectState fmt db ids).valid.insertionSort
          overallR := by
        have : iw ∈ ((collectState fmt db ids).valid.insertionSort
            overallR).insertionSort chainR := by
          rw [hcs]; exact List.mem_cons_self _ _
        exact (List.mem_insertionSort chainR).1 this
      refine ⟨iw, hiw_mem, hbid, ?_⟩
      intro i hi
      have hi' : i ∈ ((collectState fmt db ids).valid.insertionSort
          overallR).insertionSort chainR := (List.mem_insertionSort chainR).2 hi
      rw [hcs] at hi'
      rcases List.mem_cons.1 hi' with rfl | hi''
      · exact tupLe_refl _
      · have hs := List.sorted_insertionSort chainR
          ((collectState fmt db ids).valid.insertionSort overallR)
        rw [hcs] at hs
        exact (List.pairwise_cons.1 hs).1 i hi''

/-- Witness for C1 at the concrete scenario comparison. -/
theorem claim_C1_witness :
    ((["batch_a", "batch_b"].any (fun i => sStartsWith i "demo-") = false) ∧
     compare_institutions fmt0 dbAB ["batch_a", "batch_b"] = .ok rAB ∧
     rAB.valid_for_comparison = true) ∧
    (rAB.institutions =
      (collectState fmt0 dbAB ["batch_a", "batch_b"]).valid.insertionSort
        overallR ∧
    rAB.institutions.Pairwise (fun a b => b.overall_score ≤ a.overall_score) ∧
    (∀ w, rAB.winner_institution = some w →
      ∃ iw ∈ rAB.institutions, iw.batch_id = w ∧
        ∀ i ∈ rAB.institutions, tupLe (sortKeyIC i) (sortKeyIC iw) = true) ∧
    okWinner (compare_institutions fmt0 dbAB ["batch_a", "batch_b"]) =
      some "batch_a") :=
  ⟨⟨by with_unfolding_all rfl, by with_unfolding_all rfl,
    by with_unfolding_all rfl⟩,
   claim_C1 fmt0 dbAB ["batch_a", "batch_b"] rAB (by with_unfolding_all rfl)
     (by with_unfolding_all rfl) (by with_unfolding_all rfl)⟩

/-! ### Claim C7 — category winners and tie lists -/

/-- The (value, institution) pairs of the institutions with a present value
for a metric, in scan order. -/
def presentFor (key : String) (insts : List InstitutionComparison) :
    List (ℚ × InstitutionComparison) :=
  insts.filterMap (fun i => (lookupQ i.kpis key).map (fun v => (v, i)))

/-- The maximum of a list of rationals, `none` on the empty list. -/
def qmax (l : List ℚ) : Option ℚ :=
  l.foldl (fun acc v =>
    match acc with
    | none => some v
    | some m => some (max m v)) none

theorem qmax_append_singleton (l : List ℚ) (v : ℚ) :
    qmax (l ++ [v]) =
      some (match qmax l with | none => v | some m => max m v) := by
  unfold qmax
  rw [List.foldl_append]
  cases (l.foldl (fun acc v =>
    match acc with
    | none => some v
    | some m => some (max m v)) none) <;> rfl

theorem qmax_nil : qmax [] = none := rfl

theorem qmax_eq_none : ∀ (l : List ℚ), qmax l = none ↔ l = [] := by
  intro l
  induction l using List.reverseRecOn with
  | nil => simp [qmax_nil]
  | append_singleton l v _ =>
    rw [qmax_append_singleton]
    simp

theorem qmax_mem : ∀ (l : List ℚ) (m : ℚ), qmax l = some m → m ∈ l := by
  intro l
  induction l using List.reverseRecOn with
  | nil => intro m h; simp [qmax_nil] at h
  | append_singleton l v ih =>
    intro m h
    rw [qmax_append_singleton] at h
    injection h with h
    cases hq : qmax l with
    | none =>
      rw [hq] at h
      dsimp only at h
      subst h
      simp
    | some m0 =>
      rw [hq] at h
      dsimp only at h
      rcases max_choice m0 v with hc | hc
      · rw [hc] at h
        subst h
        exact List.mem_append_left _ (ih m0 hq)
      · rw [hc] at h
        subst h
        simp

theorem qmax_le : ∀ (l : List ℚ) (m : ℚ), qmax l = some m → ∀ x ∈ l, x ≤ m := by
  intro l
  induction l using List.reverseRecOn with
  | nil => intro m _ x hx; simp at hx
  | append_singleton l v ih =>
    intro m h x hx
    rw [qmax_append_singleton] at h
    injection h with h
    cases hq : qmax l with
    | none =>
      rw [hq] at h
      dsimp only at h
      have hl : l = [] := (qmax_eq_none l).1 hq
      subst hl
      simp at hx
      subst hx
      exact le_of_eq h
    | some m0 =>
      rw [hq] at h
      dsimp only at h
      rcases List.mem_append.1 hx with hx | hx
      · have := ih m0 hq x hx
        rw [← h]
        exact this.trans (le_max_left _ _)
      · rw [List.mem_singleton] at hx
        subst hx
        rw [← h]
        exact le_max_right _ _

/-- The category-winner accumulator as the amended claim describes it: the
maximum present value, its first attainer as the winner, and the labels of
the later attainers (the winner itself excluded) as the tie list. -/
def catSpecAcc (key : String) (insts : List InstitutionComparison) : CatAcc :=
  match qmax ((presentFor key insts).map Prod.fst) with
  | none => ⟨none, []⟩
  | some maxv =>
    match (presentFor key insts).filter (fun p => p.1 = maxv) with
    | [] => ⟨none, []⟩
    | p0 :: rest =>
      ⟨some (maxv, p0.2.batch_id, p0.2.short_label),
       rest.map (fun p => p.2.short_label)⟩

theorem presentFor_append (key : String) (l1 l2 : List InstitutionComparison) :
    presentFor key (l1 ++ l2) = presentFor key l1 ++ presentFor key l2 := by
  unfold presentFor
  exact List.filterMap_append _ _ _

theorem catSpecAcc_append (key : String) (l : List InstitutionComparison)
    (i : InstitutionComparison) :
    catSpecAcc key (l ++ [i]) = catStep key (catSpecAcc key l) i := by
  cases hv : lookupQ i.kpis key with
  | none =>
    have hp : presentFor key (l ++ [i]) = presentFor key l := by
      rw [presentFor_append]
      simp [presentFor, hv]
    unfold catSpecAcc catStep
    rw [hp, hv]
  | some v =>
    have hp : presentFor key (l ++ [i]) = presentFor key l ++ [(v, i)] := by
      rw [presentFor_append]
      simp [presentFor, hv]
    unfold catSpecAcc catStep
    rw [hp, hv, List.map_append]
    simp only [List.map_cons, List.map_nil]
    rw [qmax_append_singleton]
    cases hq : qmax ((presentFor key l).map Prod.fst) with
    | none =>
      have hP : presentFor key l = [] :=
        List.map_eq_nil_iff.1 ((qmax_eq_none _).1 hq)
      rw [hP]
      simp
    | some m0 =>
      dsimp only
      cases hfil : (presentFor key l).filter (fun p => p.1 = m0) with
      | nil =>
        exfalso
        have hm : m0 ∈ (presentFor key l).map Prod.fst := qmax_mem _ _ hq
        obtain ⟨p, hp1, hp2⟩ := List.mem_map.1 hm
        have := List.filter_eq_nil_iff.1 hfil p hp1
        simp [hp2] at this
      | cons p0 rest =>
        dsimp only
        rcases lt_trichotomy m0 v with hlt | heq | hgt
        · rw [if_pos hlt]
          rw [max_eq_right (le_of_lt hlt)]
          have hfilv : (presentFor key l).filter (fun p => p.1 = v) = [] := by
            apply List.filter_eq_nil_iff.2
            intro p hp
            have hle : p.1 ≤ m0 :=
              qmax_le _ _ hq p.1 (List.mem_map_of_mem _ hp)
            simp only [decide_eq_true_eq]
            intro hpe
            rw [hpe] at hle
            exact absurd hlt (not_lt.2 hle)
          rw [List.filter_append, hfilv, List.nil_append]
          simp
        · subst heq
          rw [if_neg (lt_irrefl m0), if_pos rfl]
          rw [max_self]
          rw [List.filter_append, hfil]
          simp
        · rw [if_neg (not_lt.2 (le_of_lt hgt)), if_neg (ne_of_lt hgt)]
          rw [max_eq_left (le_of_lt hgt)]
          have hfilv : ([(v, i)] : List (ℚ × InstitutionComparison)).filter
              (fun p => p.1 = m0) = [] := by
            simp [ne_of_lt hgt]
          rw [List.filter_append, hfil, hfilv, List.append_nil]

theorem catFold_char (key : String) :
    ∀ insts : List InstitutionComparison,
      insts.foldl (catStep key) ⟨none, []⟩ = catSpecAcc key insts := by
  intro insts
  induction insts using List.reverseRecOn with
  | nil => rfl
  | append_singleton l i ih =>
    rw [List.foldl_append, List.foldl_cons, List.foldl_nil, ih,
      catSpecAcc_append]

theorem presentFor_mem {key : String} {insts : List InstitutionComparison}
    {p : ℚ × InstitutionComparison} (hp : p ∈ presentFor key insts) :
    p.2 ∈ insts := by
  obtain ⟨i, hi, hmap⟩ := List.mem_filterMap.1 hp
  cases hlk : lookupQ i.kpis key with
  | none => rw [hlk] at hmap; simp at hmap
  | some v =>
    rw [hlk] at hmap
    simp only [Option.map_some'] at hmap
    injection hmap with hmap
    rw [← hmap]
    exact hi

/-- The category-winner record as the amended claim describes it, with no
empty-id guard: present when some institution has a present value, carrying
the maximum value, its first attainer, and the later attainers' labels. -/
def categorySpec (fmt : Fmt) (insts : List InstitutionComparison)
    (key : String) : Option CategoryWinner :=
  match catSpecAcc key insts with
  | ⟨none, _⟩ => none
  | ⟨some (bv, bb, bl), tied⟩ =>
    some { kpi_key := key, kpi_name := fmt.metricName key,
           winner_batch_id := bb, winner_label := bl, winner_value := bv,
           is_tie := decide (0 < tied.length), tied_with := tied }

theorem catSpecAcc_best_mem {key : String} {insts : List InstitutionComparison}
    {bv : ℚ} {bb bl : String} {tied : List String}
    (h : catSpecAcc key insts = ⟨some (bv, bb, bl), tied⟩) :
    ∃ i ∈ insts, i.batch_id = bb := by
  unfold catSpecAcc at h
  cases hq : qmax ((presentFor key insts).map Prod.fst) with
  | none => rw [hq] at h; simp at h
  | some m =>
    rw [hq] at h
    dsimp only at h
    cases hfil : (presentFor key insts).filter (fun p => p.1 = m) with
    | nil => rw [hfil] at h; simp at h
    | cons p0 rest =>
      rw [hfil] at h
      dsimp only at h
      have hp0 : p0 ∈ presentFor key insts := by
        have : p0 ∈ (presentFor key insts).filter (fun p => p.1 = m) := by
          rw [hfil]; exact List.mem_cons_self _ _
        exact List.mem_of_mem_filter this
      refine ⟨p0.2, presentFor_mem hp0, ?_⟩
      injection h with h1 h2
      injection h1 with h1
      exact congrArg (fun t => t.2.1) h1

theorem categoryDetail_eq_spec (fmt : Fmt) (insts : List InstitutionComparison)
    (key : String) (hne : ∀ i ∈ insts, i.batch_id ≠ "") :
    categoryDetail fmt insts key = categorySpec fmt insts key := by
  unfold categoryDetail categorySpec
  rw [catFold_char]
  cases hacc : catSpecAcc key insts with
  | mk best tied =>
    cases best with
    | none => rfl
    | some t =>
      obtain ⟨bv, bb, bl⟩ := t
      obtain ⟨i, hi, hib⟩ := catSpecAcc_best_mem hacc
      have hbb : bb ≠ "" := hib ▸ hne i hi
      dsimp only
      rw [if_pos hbb]

/-- C7 (amended): in every valid non-demo comparison, the interpretation's
category winners are, for each canonical metric, exactly the claim's
max-characterisation: the metric is omitted when no institution has a present
value; otherwise the winner is the first institution attaining the maximum
present value, `tied_with` lists the labels of the later institutions
attaining that maximum (the winner itself is not listed), and `is_tie` holds
exactly when that list is non-empty.  (The institutions are assumed to carry
non-empty batch ids, which every stored submission id satisfies.) -/
theorem claim_C7_amended (fmt : Fmt) (db : List Batch) (ids : List String)
    (r : ComparisonResponse)
    (hnd : ids.any (fun i => sStartsWith i "demo-") = false)
    (h : compare_institutions fmt db ids = .ok r)
    (hv : r.valid_for_comparison = true)
    (hne : ∀ i ∈ r.institutions, i.batch_id ≠ "") :
    r.interpretation.map (fun it => it.category_winners) =
      some (CANONICAL_KPIS.filterMap (categorySpec fmt r.institutions)) := by
  have hr := compare_ok_valid fmt db ids r hnd h hv
  subst hr
  show some (CANONICAL_KPIS.filterMap (categoryDetail fmt
    ((collectState fmt db ids).valid.insertionSort overallR))) = _
  congr 1
  apply List.filterMap_congr
  intro key _
  exact categoryDetail_eq_spec fmt _ key hne

/-- Witness for C7's amended claim at the concrete scenario comparison. -/
theorem claim_C7_witness :
    ((["batch_a", "batch_b"].any (fun i => sStartsWith i "demo-") = false) ∧
     compare_institutions fmt0 dbAB ["batch_a", "batch_b"] = .ok rAB ∧
     rAB.valid_for_comparison = true ∧
     (∀ i ∈ rAB.institutions, i.batch_id ≠ "")) ∧
    rAB.interpretation.map (fun it => it.category_winners) =
      some (CANONICAL_KPIS.filterMap (categorySpec fmt0 rAB.institutions)) :=
  ⟨⟨by with_unfolding_all rfl, by with_unfolding_all rfl,
    by with_unfolding_all rfl, by with_unfolding_all decide⟩,
   claim_C7_amended fmt0 dbAB ["batch_a", "batch_b"] rAB
     (by with_unfolding_all rfl) (by with_unfolding_all rfl)
     (by with_unfolding_all rfl) (by with_unfolding_all decide)⟩

/-- Counterexample for C7 as stated: institutions A and B both hold the
maximum present value 70 for `lab_compliance_index`; the emitted category
winner has `is_tie = true` but `tied_with = ["batch_b"]` — the winner's own
label `batch_a` is not in the tie list, so the two tied institutions do not
both appear in `tied_with`. -/
theorem claim_C7_counterexample :
    ((okCatDetails (compare_institutions fmt0 dbAB ["batch_a", "batch_b"])).filter
      (fun d => d.kpi_key = "lab_compliance_index")) =
      [{ kpi_key := "lab_compliance_index", kpi_name := "lab_compliance_index",
         winner_batch_id := "batch_a", winner_label := "batch_a",
         winner_value := 70, is_tie := true, tied_with := ["batch_b"] }] ∧
    (okInsts (compare_institutions fmt0 dbAB ["batch_a", "batch_b"])).map
      (fun i => lookupQ i.kpis "lab_compliance_index") = [some 70, some 70] ∧
    ("batch_a" : String) ∉ (["batch_b"] : List String) :=
  ⟨by with_unfolding_all rfl, by with_unfolding_all rfl,
   by with_unfolding_all decide⟩

/-! ### Claim C5 — cross-department governance -/

/-- The department names the comparison loop collects: for every id passing
the eligibility guard (including ids later skipped by the KPI screen), the
submission's non-empty department name, in input order. -/
def guardPassedDepts (db : List Batch) (ids : List String) :
    List (String × String) :=
  ids.filterMap (fun bid =>
    if (validate_batch db bid).is_valid then
      match findBatch db bid with
      | some b =>
        match b.department_name with
        | some d => if d = "" then none else some (bid, d)
        | none => none
      | none => none
    else none)

theorem validate_valid_shape (db : List Batch) (bid : String) :
    (validate_batch db bid).is_valid = true →
      (findBatch db bid).isSome ∧ ((validate_batch db bid).info).isSome := by
  unfold validate_batch
  cases hfb : findBatch db bid with
  | none => simp
  | some b =>
    dsimp only
    split_ifs <;> simp

theorem compareStep_depts (fmt : Fmt) (db : List Batch) (st : CmpState)
    (bid : String) :
    (compareStep fmt db st bid).depts =
      st.depts ++ guardPassedDepts db [bid] := by
  unfold compareStep guardPassedDepts
  dsimp only
  by_cases hval : (validate_batch db bid).is_valid = true
  · rw [if_neg (by simp [hval]), List.filterMap_cons, if_pos hval]
    obtain ⟨hf, hi⟩ := validate_valid_shape db bid hval
    obtain ⟨b, hfb⟩ := Option.isSome_iff_exists.1 hf
    obtain ⟨info, hinfo⟩ := Option.isSome_iff_exists.1 hi
    rw [hfb, hinfo]
    dsimp only
    cases hd : b.department_name with
    | none => split_ifs <;> simp
    | some d =>
      by_cases hde : d = ""
      · simp only [hde, if_pos rfl]
        split_ifs <;> simp
      · simp only [if_neg hde]
        split_ifs <;> simp
  · rw [if_pos (by simpa using hval), List.filterMap_cons, if_neg hval]
    simp

theorem collect_depts (fmt : Fmt) (db : List Batch) :
    ∀ (ids : List String) (st : CmpState),
      (ids.foldl (compareStep fmt db) st).depts =
        st.depts ++ guardPassedDepts db ids := by
  intro ids
  induction ids with
  | nil => intro st; simp [guardPassedDepts]
  | cons bid rest ih =>
    intro st
    rw [List.foldl_cons, ih]
    rw [compareStep_depts]
    have : guardPassedDepts db (bid :: rest) =
        guardPassedDepts db [bid] ++ guardPassedDepts db rest := by
      unfold guardPassedDepts
      rw [show (bid :: rest) = [bid] ++ rest from rfl, List.filterMap_append]
    rw [this, List.append_assoc]

/-- C5 (amended): the comparison collects department names from every
submission passing the Eligibility Guard — including submissions later
skipped by the positive-KPI screen — and whenever more than one distinct
non-empty name appears among those, it returns an invalid response that
enumerates all the collected distinct names and still carries the partial
institution, skip and matrix lists. -/
theorem claim_C5_amended (fmt : Fmt) (db : List Batch) (ids : List String)
    (hnd : ids.any (fun i => sStartsWith i "demo-") = false)
    (h2 : 2 ≤ ids.length) (h10 : ids.length ≤ 10)
    (hmany : 1 < ((guardPassedDepts db ids).map (fun p => p.2)).dedup.length) :
    compare_institutions fmt db ids =
      .ok (crossDeptResponse (collectState fmt db ids)
        (((guardPassedDepts db ids).map (fun p => p.2)).dedup)) ∧
    (crossDeptResponse (collectState fmt db ids)
        (((guardPassedDepts db ids).map (fun p => p.2)).dedup)).valid_for_comparison
      = false ∧
    (crossDeptResponse (collectState fmt db ids)
        (((guardPassedDepts db ids).map (fun p => p.2)).dedup)).validation_message
      = some (crossDeptMsg (((guardPassedDepts db ids).map (fun p => p.2)).dedup)) ∧
    (crossDeptResponse (collectState fmt db ids)
        (((guardPassedDepts db ids).map (fun p => p.2)).dedup)).institutions
      = (collectState fmt db ids).valid ∧
    (crossDeptResponse (collectState fmt db ids)
        (((guardPassedDepts db ids).map (fun p => p.2)).dedup)).skipped_batches
      = (collectState fmt db ids).skipped := by
  have hdepts : (collectState fmt db ids).depts = guardPassedDepts db ids := by
    have := collect_depts fmt db ids compareInit
    simpa [collectState, compareInit] using this
  refine ⟨?_, rfl, rfl, rfl, rfl⟩
  unfold compare_institutions
  rw [hnd, if_neg (by simp : ¬((false : Bool) = true))]
  rw [if_neg (by omega : ¬ ids.length < 2), if_neg (by omega : ¬ 10 < ids.length)]
  congr 1
  simp only [compareOutcome, hdepts]
  rw [if_pos hmany]

/-- Witness for C5's amended claim over the three-batch store spanning
departments CS and EE. -/
theorem claim_C5_witness :
    ((["batch_a", "batch_b", "batch_c"].any (fun i => sStartsWith i "demo-") = false) ∧
     2 ≤ (["batch_a", "batch_b", "batch_c"] : List String).length ∧
     (["batch_a", "batch_b", "batch_c"] : List String).length ≤ 10 ∧
     1 < ((guardPassedDepts dbABC ["batch_a", "batch_b", "batch_c"]).map
       (fun p => p.2)).dedup.length) ∧
    compare_institutions fmt0 dbABC ["batch_a", "batch_b", "batch_c"] =
      .ok (crossDeptResponse (collectState fmt0 dbABC ["batch_a", "batch_b", "batch_c"])
        (((guardPassedDepts dbABC ["batch_a", "batch_b", "batch_c"]).map
          (fun p => p.2)).dedup)) :=
  ⟨⟨by with_unfolding_all rfl, by with_unfolding_all decide,
    by with_unfolding_all decide, by with_unfolding_all decide⟩,
   (claim_C5_amended fmt0 dbABC ["batch_a", "batch_b", "batch_c"]
     (by with_unfolding_all rfl) (by with_unfolding_all decide)
     (by with_unfolding_all decide) (by with_unfolding_all decide)).1⟩

/-- Counterexample for C5 as stated: the comparison returns the
cross-department invalid response enumerating "CS, EE", yet every surviving
(returned) institution belongs to department CS — the name EE was collected
from `batch_c`, which passed the guard but was skipped by the KPI screen, not
from a surviving submission. -/
theorem claim_C5_counterexample :
    okValid (compare_institutions fmt0 dbABC ["batch_a", "batch_b", "batch_c"]) =
      some false ∧
    okMsg (compare_institutions fmt0 dbABC ["batch_a", "batch_b", "batch_c"]) =
      some "Cross-department comparison not allowed. Found departments: CS, EE" ∧
    (okInsts (compare_institutions fmt0 dbABC
      ["batch_a", "batch_b", "batch_c"])).map (fun i => i.batch_id) =
      ["batch_a", "batch_b"] ∧
    ((okInsts (compare_institutions fmt0 dbABC
      ["batch_a", "batch_b", "batch_c"])).all
      (fun i => (findBatch dbABC i.batch_id).elim false
        (fun b => b.department_name = some "CS"))) = true :=
  ⟨by with_unfolding_all rfl, by with_unfolding_all rfl,
   by with_unfolding_all rfl, by with_unfolding_all rfl⟩

/-! ### Claim C3 — zero-valued versus absent KPI entries -/

/-- A raw KPI entry whose stored value is exactly 0, in either accepted
shape (record with `value = 0`, or a bare 0). -/
def isZeroEntry : RawKPI → Bool
  | .record (some v) _ => decide (v = 0)
  | .bare x => decide (x = 0)
  | _ => false

/-- The truthy view of an optional KPI value: a stored 0 collapses to
absent.  Two dashboards whose `kpis` maps agree under this view are
indistinguishable to the comparison's canonicalizer. -/
def tv : Option ℚ → Option ℚ
  | some x => if x = 0 then none else some x
  | none => none

/-- The positive screen of the canonicalizer: keep a value only when it is
strictly above 0. -/
def pf : Option ℚ → Option ℚ
  | some x => if 0 < x then some x else none
  | none => none

/-- The value a raw KPI entry contributes to the dashboard `kpis` map
(`none` when the entry is skipped). -/
def dkView : RawKPI → Option (Option ℚ)
  | .record v _ => some v
  | .bare x => some (some x)
  | .other => none

theorem lookup_cons {β : Type} (k k0 : String) (v : β) (l : List (String × β)) :
    ((k0, v) :: l).lookup k = if k = k0 then some v else l.lookup k := by
  by_cases h : k = k0
  · simp [List.lookup, h]
  · have hne : (k == k0) = false := by simpa [beq_iff_eq] using h
    simp [List.lookup, hne, h]

theorem lookup_keys_none {β : Type} (l : List (String × β)) (k : String)
    (h : k ∉ l.map Prod.fst) : l.lookup k = none := by
  induction l with
  | nil => rfl
  | cons p rest ih =>
    obtain ⟨k0, v0⟩ := p
    simp only [List.map_cons, List.mem_cons] at h
    push_neg at h
    rw [lookup_cons, if_neg h.1]
    exact ih h.2

theorem dashKpis_cons (p : String × RawKPI) (rest : List (String × RawKPI)) :
    dashboardKpis (p :: rest) =
      (match p.2 with
       | .record v _ => [(p.1, v)]
       | .bare x => [(p.1, some x)]
       | .other => []) ++ dashboardKpis rest := by
  obtain ⟨k0, v0⟩ := p
  cases v0 <;> simp [dashboardKpis]

theorem dashKpis_keys_subset (kr : List (String × RawKPI)) :
    (dashboardKpis kr).map Prod.fst ⊆ kr.map Prod.fst := by
  intro k hk
  simp only [dashboardKpis, List.mem_map] at hk
  obtain ⟨q, hq, hqk⟩ := hk
  rw [List.mem_filterMap] at hq
  obtain ⟨p, hp, hpq⟩ := hq
  simp only [List.mem_map]
  refine ⟨p, hp, ?_⟩
  cases hv : p.2 with
  | record v nm =>
    rw [hv] at hpq
    dsimp only at hpq
    injection hpq with hpq
    cases hpq
    exact hqk
  | bare x =>
    rw [hv] at hpq
    dsimp only at hpq
    injection hpq with hpq
    cases hpq
    exact hqk
  | other =>
    rw [hv] at hpq
    exact absurd hpq (by simp)

theorem dashKpis_lookup (kr : List (String × RawKPI)) (k : String)
    (hnd : (kr.map Prod.fst).Nodup) :
    (dashboardKpis kr).lookup k = (kr.lookup k).bind dkView := by
  induction kr with
  | nil => rfl
  | cons p rest ih =>
    obtain ⟨k0, v0⟩ := p
    simp only [List.map_cons, List.nodup_cons] at hnd
    obtain ⟨hk0, hnd'⟩ := hnd
    rw [dashKpis_cons]
    dsimp only
    by_cases hk : k = k0
    · subst hk
      cases v0 with
      | record v nm =>
        dsimp only
        rw [List.singleton_append, lookup_cons, if_pos rfl,
          lookup_cons, if_pos rfl]
        rfl
      | bare x =>
        dsimp only
        rw [List.singleton_append, lookup_cons, if_pos rfl,
          lookup_cons, if_pos rfl]
        rfl
      | other =>
        dsimp only
        rw [List.nil_append,
          lookup_keys_none (dashboardKpis rest) k
            (fun hm => hk0 (dashKpis_keys_subset rest hm)),
          lookup_cons, if_pos rfl]
        rfl
    · cases v0 with
      | record v nm =>
        dsimp only
        rw [List.singleton_append, lookup_cons, if_neg hk,
          lookup_cons, if_neg hk]
        exact ih hnd'
      | bare x =>
        dsimp only
        rw [List.singleton_append, lookup_cons, if_neg hk,
          lookup_cons, if_neg hk]
        exact ih hnd'
      | other =>
        dsimp only
        rw [List.nil_append, lookup_cons, if_neg hk]
        exact ih hnd'

theorem lookup_middle_ne {β : Type} (l1 l2 : List (String × β)) (k0 key : String)
    (e : β) (hne : key ≠ k0) :
    (l1 ++ (k0, e) :: l2).lookup key = (l1 ++ l2).lookup key := by
  induction l1 with
  | nil =>
    simp only [List.nil_append]
    rw [lookup_cons, if_neg hne]
  | cons p rest ih =>
    obtain ⟨ka, va⟩ := p
    simp only [List.cons_append]
    rw [lookup_cons, lookup_cons]
    by_cases h : key = ka
    · rw [if_pos h, if_pos h]
    · rw [if_neg h, if_neg h]
      exact ih

theorem lookup_middle_self {β : Type} (l1 l2 : List (String × β)) (k0 : String)
    (e : β) (h1 : k0 ∉ l1.map Prod.fst) (h2 : k0 ∉ l2.map Prod.fst) :
    (l1 ++ (k0, e) :: l2).lookup k0 = some e ∧ (l1 ++ l2).lookup k0 = none := by
  induction l1 with
  | nil =>
    constructor
    · simp only [List.nil_append]
      rw [lookup_cons, if_pos rfl]
    · simp only [List.nil_append]
      exact lookup_keys_none l2 k0 h2
  | cons p rest ih =>
    obtain ⟨ka, va⟩ := p
    simp only [List.map_cons, List.mem_cons] at h1
    push_neg at h1
    simp only [List.cons_append]
    rw [lookup_cons, lookup_cons, if_neg h1.1, if_neg h1.1]
    exact ih h1.2

theorem tv_lookup_invariant (l1 l2 : List (String × RawKPI)) (k0 : String)
    (e : RawKPI) (hz : isZeroEntry e = true)
    (hnd : ((l1 ++ (k0, e) :: l2).map Prod.fst).Nodup) (key : String) :
    tv (lookupQ (dashboardKpis (l1 ++ (k0, e) :: l2)) key) =
      tv (lookupQ (dashboardKpis (l1 ++ l2)) key) := by
  have hnd' := hnd
  rw [List.map_append, List.map_cons, List.nodup_append] at hnd'
  obtain ⟨h1nd, hcons, hdisj⟩ := hnd'
  rw [List.nodup_cons] at hcons
  obtain ⟨hk0l2, h2nd⟩ := hcons
  have hk0l1 : k0 ∉ l1.map Prod.fst :=
    fun hm => hdisj hm (List.mem_cons_self _ _)
  have hndlr : ((l1 ++ l2).map Prod.fst).Nodup := by
    rw [List.map_append, List.nodup_append]
    exact ⟨h1nd, h2nd, fun a ha hb => hdisj ha (List.mem_cons_of_mem _ hb)⟩
  have hndl : ((l1 ++ (k0, e) :: l2).map Prod.fst).Nodup := hnd
  unfold lookupQ
  rw [dashKpis_lookup _ _ hndl, dashKpis_lookup _ _ hndlr]
  by_cases hk : key = k0
  · subst hk
    rw [(lookup_middle_self l1 l2 key e hk0l1 hk0l2).1,
        (lookup_middle_self l1 l2 key e hk0l1 hk0l2).2]
    cases e with
    | record v nm =>
      cases v with
      | none => simp [isZeroEntry] at hz
      | some x =>
        have hx : x = 0 := by simpa [isZeroEntry] using hz
        subst hx
        simp [dkView, tv]
    | bare x =>
      have hx : x = 0 := by simpa [isZeroEntry] using hz
      subst hx
      simp [dkView, tv]
    | other => simp [isZeroEntry] at hz
  · rw [lookup_middle_ne l1 l2 k0 key e hk]

theorem pf_tv (v : Option ℚ) : pf (tv v) = pf v := by
  cases v with
  | none => rfl
  | some x =>
    by_cases hx : x = 0
    · subst hx
      simp [tv, pf]
    · simp [tv, pf, hx]

theorem pyOr_tv (a b : Option ℚ) :
    pyOr a b = match tv a with | some v => some v | none => b := by
  cases a with
  | none => rfl
  | some x =>
    by_cases hx : x = 0
    · subst hx
      simp [pyOr, tv]
    · simp [pyOr, tv, hx]

theorem pyOr_pf_congr (x y x' y' : Option ℚ) (hx : tv x = tv x')
    (hy : tv y = tv y') : pf (pyOr x y) = pf (pyOr x' y') := by
  rw [pyOr_tv, pyOr_tv, hx]
  cases htv : tv x' with
  | none =>
    dsimp only
    rw [← pf_tv y, hy, pf_tv]
  | some v => rfl

theorem extractKpiMap_congr (m m' : List (String × Option ℚ))
    (h : ∀ key, tv (lookupQ m key) = tv (lookupQ m' key)) :
    extractKpiMap m = extractKpiMap m' := by
  unfold extractKpiMap
  apply List.map_congr_left
  intro key hk
  simp only [CANONICAL_KPIS, List.mem_cons, List.not_mem_nil, or_false] at hk
  dsimp only
  rcases hk with rfl | rfl | rfl | rfl | rfl
  · rw [if_pos rfl, if_pos rfl]
    refine congrArg (Prod.mk _) ?_
    show pf (pyOr (lookupQ m "fsr_score") (lookupQ m "fsr")) =
      pf (pyOr (lookupQ m' "fsr_score") (lookupQ m' "fsr"))
    exact pyOr_pf_congr _ _ _ _ (h "fsr_score") (h "fsr")
  · rw [if_neg (by decide), if_pos rfl, if_neg (by decide), if_pos rfl]
    refine congrArg (Prod.mk _) ?_
    show pf (pyOr (lookupQ m "infrastructure_score") (lookupQ m "infrastructure")) =
      pf (pyOr (lookupQ m' "infrastructure_score") (lookupQ m' "infrastructure"))
    exact pyOr_pf_congr _ _ _ _ (h "infrastructure_score") (h "infrastructure")
  · rw [if_neg (by decide), if_neg (by decide), if_pos rfl,
      if_neg (by decide), if_neg (by decide), if_pos rfl]
    refine congrArg (Prod.mk _) ?_
    show pf (pyOr (lookupQ m "placement_index") (lookupQ m "placement_rate_num")) =
      pf (pyOr (lookupQ m' "placement_index") (lookupQ m' "placement_rate_num"))
    exact pyOr_pf_congr _ _ _ _ (h "placement_index") (h "placement_rate_num")
  · rw [if_neg (by decide), if_neg (by decide), if_neg (by decide), if_pos rfl,
      if_neg (by decide), if_neg (by decide), if_neg (by decide), if_pos rfl]
    refine congrArg (Prod.mk _) ?_
    show pf (pyOr (lookupQ m "lab_compliance_index") (lookupQ m "lab_compliance")) =
      pf (pyOr (lookupQ m' "lab_compliance_index") (lookupQ m' "lab_compliance"))
    exact pyOr_pf_congr _ _ _ _ (h "lab_compliance_index") (h "lab_compliance")
  · rw [if_neg (by decide), if_neg (by decide), if_neg (by decide),
      if_neg (by decide), if_pos rfl, if_neg (by decide), if_neg (by decide),
      if_neg (by decide), if_neg (by decide), if_pos rfl]
    refine congrArg (Prod.mk _) ?_
    show pf (lookupQ m "overall_score") = pf (lookupQ m' "overall_score")
    rw [← pf_tv (lookupQ m "overall_score"), h "overall_score", pf_tv]

theorem getKpiValue_middle_zero (l1 l2 : List (String × RawKPI)) (k0 : String)
    (e : RawKPI) (hz : isZeroEntry e = true)
    (h1 : k0 ∉ l1.map Prod.fst) (h2 : k0 ∉ l2.map Prod.fst) (key : String) :
    (getKpiValue (l1 ++ (k0, e) :: l2) key = none ∨
     getKpiValue (l1 ++ (k0, e) :: l2) key = some 0) ↔
    (getKpiValue (l1 ++ l2) key = none ∨
     getKpiValue (l1 ++ l2) key = some 0) := by
  unfold getKpiValue
  by_cases hk : key = k0
  · subst hk
    rw [(lookup_middle_self l1 l2 key e h1 h2).1,
        (lookup_middle_self l1 l2 key e h1 h2).2]
    cases e with
    | record v nm =>
      cases v with
      | none => simp [isZeroEntry] at hz
      | some x =>
        have hx : x = 0 := by simpa [isZeroEntry] using hz
        subst hx
        simp
    | bare x =>
      have hx : x = 0 := by simpa [isZeroEntry] using hz
      subst hx
      simp
    | other => simp [isZeroEntry] at hz
  · rw [lookup_middle_ne l1 l2 k0 key e hk]

theorem findBatch_replace (pre post : List Batch) (b b' : Batch)
    (hid : b'.id = b.id) (bid : String) :
    findBatch (pre ++ b :: post) bid = findBatch (pre ++ b' :: post) bid ∨
      (findBatch (pre ++ b :: post) bid = some b ∧
       findBatch (pre ++ b' :: post) bid = some b') := by
  induction pre with
  | nil =>
    simp only [List.nil_append]
    unfold findBatch
    by_cases hb : b.id = bid
    · right
      constructor
      · exact List.find?_cons_of_pos _ (by simp [hb])
      · exact List.find?_cons_of_pos _ (by simp [hid, hb])
    · left
      rw [List.find?_cons_of_neg _ (by simp [hb]),
        List.find?_cons_of_neg _ (by simp [hid, hb])]
  | cons a pre ih =>
    simp only [List.cons_append]
    unfold findBatch at ih ⊢
    by_cases ha : a.id = bid
    · left
      rw [List.find?_cons_of_pos _ (by simp [ha]),
        List.find?_cons_of_pos _ (by simp [ha])]
    · rw [List.find?_cons_of_neg _ (by simp [ha]),
        List.find?_cons_of_neg _ (by simp [ha])]
      exact ih

theorem validate_batch_swap (pre post : List Batch) (b : Batch)
    (l1 l2 : List (String × RawKPI)) (k0 : String) (e : RawKPI)
    (hz : isZeroEntry e = true)
    (hnd : ((l1 ++ (k0, e) :: l2).map Prod.fst).Nodup)
    (hb : b.kpi_results = l1 ++ (k0, e) :: l2) (bid : String) :
    validate_batch (pre ++ b :: post) bid =
      validate_batch (pre ++ {b with kpi_results := l1 ++ l2} :: post) bid := by
  have hnd' := hnd
  rw [List.map_append, List.map_cons, List.nodup_append] at hnd'
  obtain ⟨h1nd, hcons, hdisj⟩ := hnd'
  rw [List.nodup_cons] at hcons
  obtain ⟨hk0l2, h2nd⟩ := hcons
  have hk0l1 : k0 ∉ l1.map Prod.fst :=
    fun hm => hdisj hm (List.mem_cons_self _ _)
  rcases findBatch_replace pre post b {b with kpi_results := l1 ++ l2} rfl bid
    with heq | ⟨hf1, hf2⟩
  · unfold validate_batch
    rw [heq]
  · unfold validate_batch
    rw [hf1, hf2]
    dsimp only
    rw [hb]
    by_cases hc : getKpiValue (l1 ++ (k0, e) :: l2) "overall_score" = none ∨
        getKpiValue (l1 ++ (k0, e) :: l2) "overall_score" = some 0
    · rw [if_pos hc, if_pos
        ((getKpiValue_middle_zero l1 l2 k0 e hz hk0l1 hk0l2 "overall_score").1 hc)]
    · rw [if_neg hc, if_neg (fun hc' => hc
        ((getKpiValue_middle_zero l1 l2 k0 e hz hk0l1 hk0l2 "overall_score").2 hc'))]

theorem compareStep_swap (fmt : Fmt) (pre post : List Batch) (b : Batch)
    (l1 l2 : List (String × RawKPI)) (k0 : String) (e : RawKPI)
    (hz : isZeroEntry e = true)
    (hnd : ((l1 ++ (k0, e) :: l2).map Prod.fst).Nodup)
    (hb : b.kpi_results = l1 ++ (k0, e) :: l2) (st : CmpState) (bid : String) :
    compareStep fmt (pre ++ b :: post) st bid =
      compareStep fmt (pre ++ {b with kpi_results := l1 ++ l2} :: post) st bid := by
  have hval := validate_batch_swap pre post b l1 l2 k0 e hz hnd hb bid
  unfold compareStep
  rw [hval]
  dsimp only
  by_cases hv :
      (validate_batch (pre ++ {b with kpi_results := l1 ++ l2} :: post) bid).is_valid
        = false
  · rw [if_pos hv, if_pos hv]
  · rw [if_neg hv, if_neg hv]
    rcases findBatch_replace pre post b {b with kpi_results := l1 ++ l2} rfl bid
      with heq | ⟨hf1, hf2⟩
    · rw [heq]
    · rw [hf1, hf2]
      cases hinfo :
          (validate_batch (pre ++ {b with kpi_results := l1 ++ l2} :: post) bid).info
        with
      | none => rfl
      | some info =>
        have hkm : extractKpiMap (dashboardKpis (l1 ++ (k0, e) :: l2)) =
            extractKpiMap (dashboardKpis (l1 ++ l2)) :=
          extractKpiMap_congr _ _
            (fun key => tv_lookup_invariant l1 l2 k0 e hz hnd key)
        simp only [get_dashboard_data, getRealInstName]
        rw [hb, hkm]

/-- C3 (amended to the comparison only): replacing a KPI entry whose stored
value is exactly 0 by an absent entry in one submission's raw KPI data yields
the identical `compare()` output, for every request.  (The companion
counterexample shows the analogous invariance fails for `rank()`.) -/
theorem claim_C3_amended (fmt : Fmt) (pre post : List Batch) (b : Batch)
    (l1 l2 : List (String × RawKPI)) (k0 : String) (e : RawKPI)
    (ids : List String) (hz : isZeroEntry e = true)
    (hnd : ((l1 ++ (k0, e) :: l2).map Prod.fst).Nodup)
    (hb : b.kpi_results = l1 ++ (k0, e) :: l2) :
    compare_institutions fmt (pre ++ b :: post) ids =
      compare_institutions fmt (pre ++ {b with kpi_results := l1 ++ l2} :: post) ids := by
  have hstep : compareStep fmt (pre ++ b :: post) =
      compareStep fmt (pre ++ {b with kpi_results := l1 ++ l2} :: post) := by
    funext st bid
    exact compareStep_swap fmt pre post b l1 l2 k0 e hz hnd hb st bid
  unfold compare_institutions collectState
  rw [hstep]

/-- Witness for C3's amended claim: dropping the zero-valued `overall_score`
entry of `batch_z` leaves the two-id comparison output unchanged. -/
theorem claim_C3_witness :
    (isZeroEntry (RawKPI.bare 0) = true ∧
     ((([] : List (String × RawKPI)) ++
        ("overall_score", RawKPI.bare 0) :: []).map Prod.fst).Nodup ∧
     batchZ.kpi_results =
       ([] : List (String × RawKPI)) ++ ("overall_score", RawKPI.bare 0) :: []) ∧
    compare_institutions fmt0 ([batchA] ++ batchZ :: []) ["batch_a", "batch_z"] =
      compare_institutions fmt0
        ([batchA] ++
          {batchZ with kpi_results := ([] : List (String × RawKPI)) ++ []} :: [])
        ["batch_a", "batch_z"] :=
  ⟨⟨by with_unfolding_all decide, by with_unfolding_all decide,
    by with_unfolding_all rfl⟩,
   claim_C3_amended fmt0 [batchA] [] batchZ [] [] "overall_score" (RawKPI.bare 0)
     ["batch_a", "batch_z"] (by with_unfolding_all decide)
     (by with_unfolding_all decide) (by with_unfolding_all rfl)⟩

/-- Counterexample for C3 as stated: for `rank()`, a stored 0 is NOT
equivalent to an absent value.  `batch_z` (sole KPI `overall_score` stored as
exactly 0) is ranked — its zero KPI counts as a present weighted metric —
while the identical submission with the entry absent lands on the
insufficient list. -/
theorem claim_C3_counterexample :
    batchZabs = { batchZ with kpi_results := [] } ∧
    rank_institutions fmt0 dbZ ["batch_z"] [("overall_score", 1)] 10 "overall" ≠
      rank_institutions fmt0 dbZabs ["batch_z"] [("overall_score", 1)] 10 "overall" ∧
    ((rank_institutions fmt0 dbZ ["batch_z"] [("overall_score", 1)] 10
        "overall").institutions).map (fun i => i.batch_id) = ["batch_z"] ∧
    (rank_institutions fmt0 dbZ ["batch_z"] [("overall_score", 1)] 10
        "overall").insufficient_batches = [] ∧
    (rank_institutions fmt0 dbZabs ["batch_z"] [("overall_score", 1)] 10
        "overall").institutions = [] ∧
    (rank_institutions fmt0 dbZabs ["batch_z"] [("overall_score", 1)] 10
        "overall").insufficient_batches =
      [{ batch_id := "batch_z", reason := "no_kpis" }] :=
  ⟨by with_unfolding_all rfl, by with_unfolding_all decide,
   by with_unfolding_all rfl, by with_unfolding_all rfl,
   by with_unfolding_all rfl, by with_unfolding_all rfl⟩

/-! ### Claim C10 — demo-mode shortcut -/

/-- C10: whenever any requested id starts with `demo-`, `compare()` returns
the fixed hard-coded two-institution comparison — independent of the record
store (the `db` argument is arbitrary on the left, the right-hand side is a
constant), with winner `demo-batch-aicte-2024` and `valid_for_comparison =
true` — before the eligibility guard, the department check or the cache are
ever consulted. -/
theorem claim_C10 (fmt : Fmt) (db : List Batch) (ids : List String)
    (h : ∃ i ∈ ids, sStartsWith i "demo-" = true) :
    compare_institutions fmt db ids = .ok demoResponse ∧
    demoResponse.winner_institution = some "demo-batch-aicte-2024" ∧
    demoResponse.valid_for_comparison = true := by
  have hany : ids.any (fun i => sStartsWith i "demo-") = true := by
    rcases h with ⟨i, hi, hs⟩
    exact List.any_eq_true.mpr ⟨i, hi, hs⟩
  refine ⟨?_, rfl, rfl⟩
  simp [compare_institutions, hany]

/-- Witness for C10 at a concrete input: the id list holds a demo id, and the
store holding only `batch_a` / `batch_b` is ignored entirely. -/
theorem claim_C10_witness :
    (∃ i ∈ ["demo-batch-aicte-2024", "batch_b"], sStartsWith i "demo-" = true) ∧
    (compare_institutions fmt0 dbAB ["demo-batch-aicte-2024", "batch_b"] = .ok demoResponse ∧
     demoResponse.winner_institution = some "demo-batch-aicte-2024" ∧
     demoResponse.valid_for_comparison = true) :=
  ⟨⟨"demo-batch-aicte-2024", by simp, by decide⟩,
   claim_C10 fmt0 dbAB ["demo-batch-aicte-2024", "batch_b"]
     ⟨"demo-batch-aicte-2024", by simp, by decide⟩⟩

end Gdg
